import Mathlib

/-!
# Credential resolution of `pkg/credentials/iam_aws.go` (minio-go v7)

A shallow embedding of `IAM.RetrieveWithCredContext` and of the fetchers it
selects (`getEcsTaskCredentials`, `getEKSPodIdentityCredentials`,
`getCredentials`, `fetchIMDSToken`, `listRoleNames`, `getIAMRoleURL`,
`isLoopback`).

Everything the Go code obtains from outside the file (the process
environment, the file system, DNS, the HTTP transport, the URL and JSON
libraries, the web-identity provider) is a field of `World`, so every theorem
quantifies over all of them.  Each function threads a trace of `Event`s: the
effects it performed and the fetchers it entered, in program order.  A Go
result pair `(v, err)` is a `Ret` holding `val`, `err` (`none` is `nil`) and
the trace.
-/

namespace Credentials

/-! ## Go values -/

/-- Go `error` values: `errors.New` and `fmt.Errorf` without `%w` give `msg`, the two
context sentinels are constructors of their own, and `wrap` is an error that
unwraps to another one (as `*url.Error` returned by `http.Client.Do`). -/
inductive Error where
  | msg (text : String)
  | deadlineExceeded
  | canceled
  | wrap (pre : String) (inner : Error)
  deriving DecidableEq, Repr

/-- The `Error()` text of an error. -/
def Error.text : Error → String
  | .msg t => t
  | .deadlineExceeded => "context deadline exceeded"
  | .canceled => "context canceled"
  | .wrap pre inner => pre ++ ": " ++ inner.text

/-- Go `errors.Is err target`: `target` is `err` or occurs in its unwrap chain. -/
def errorsIs : Error → Error → Bool
  | .wrap pre inner, target =>
      decide (Error.wrap pre inner = target) || errorsIs inner target
  | err, target => decide (err = target)

/-- A `time.Time`, as nanoseconds; the zero `Time` is `⟨0⟩`. -/
structure Time where
  nanos : Int
  deriving DecidableEq, Repr

/-- A `*http.Client`, identified by its address. -/
structure Client where
  addr : Nat
  deriving DecidableEq, Repr

/-- The fields of `url.URL`. -/
structure URL where
  Scheme : String
  Opaque : String
  User : String
  Host : String
  Path : String
  RawPath : String
  RawQuery : String
  Fragment : String
  deriving DecidableEq, Repr

/-- An `http.Request` built by `http.NewRequest`: method, target URL string and the
header entries in the order they were added. -/
structure Request where
  Method : String
  URL : String
  Header : List (String × String)
  deriving DecidableEq, Repr

/-- A response body stream: the bytes it delivers and the error, if any, that ends
the stream instead of EOF. -/
structure Body where
  data : String
  readErr : Option Error
  deriving DecidableEq, Repr

/-- An `http.Response`: status code, status text and body. -/
structure Response where
  StatusCode : Int
  Status : String
  Body : Body
  deriving DecidableEq, Repr

/-- Modelled from the spec: the signer kind of a credential value, an enum declared
outside `iam_aws.go` (the type `SignatureType`).  `SignatureV4` is the kind the
file sets; `SignatureDefault` is the zero value. -/
inductive SignatureType where
  | SignatureDefault
  | SignatureV4
  | SignatureV2
  | SignatureV4Streaming
  | SignatureAnonymous
  deriving DecidableEq, Repr

/-- Modelled from the spec: the credential value (the struct `Value`, declared outside
`iam_aws.go`): access key, secret key, session token, expiration and signer
kind, the five fields `RetrieveWithCredContext` fills. -/
structure Value where
  AccessKeyID : String
  SecretAccessKey : String
  SessionToken : String
  Expiration : Time
  SignerType : SignatureType
  deriving DecidableEq, Repr

/-- The zero value `Value{}`. -/
def Value.zero : Value := ⟨"", "", "", ⟨0⟩, .SignatureDefault⟩

/-- The struct `ec2RoleCredRespBody` (the field `Type` is spelled `Typ`). -/
structure ec2RoleCredRespBody where
  Expiration : Time
  AccessKeyID : String
  SecretAccessKey : String
  Token : String
  Code : String
  Message : String
  LastUpdated : Time
  Typ : String
  deriving DecidableEq, Repr

/-- The zero value `ec2RoleCredRespBody{}`. -/
def ec2RoleCredRespBody.zero : ec2RoleCredRespBody := ⟨⟨0⟩, "", "", "", "", "", ⟨0⟩, ""⟩

/-- The anonymous struct of the field `IAM.Container`. -/
structure IAMContainer where
  AuthorizationToken : String
  AuthorizationTokenFile : String
  CredentialsFullURI : String
  CredentialsRelativeURI : String
  deriving DecidableEq, Repr

/-- The anonymous struct of the field `IAM.EKSIdentity`. -/
structure IAMEKSIdentity where
  TokenFile : String
  RoleARN : String
  RoleSessionName : String
  deriving DecidableEq, Repr

/-- The struct `IAM`.  The embedded `Expiry` is not a field here: the only thing the
file does with it is call `SetExpiration`, and each such call is an
`Event.setExpiration` of the trace. -/
structure IAM where
  Client : Option Client
  Endpoint : String
  Region : String
  Container : IAMContainer
  EKSIdentity : IAMEKSIdentity
  deriving DecidableEq, Repr

/-- Modelled from the spec: the credential context (the struct `CredContext`, declared
outside `iam_aws.go`), with the one field the file reads, the HTTP client
handle. -/
structure CredContext where
  Client : Option Client
  deriving DecidableEq, Repr

/-- Modelled from the spec: the web-identity exchange (the struct `STSWebIdentity`,
declared outside `iam_aws.go`) with the five fields `RetrieveWithCredContext`
fills.  The closure `GetWebIDTokenExpiry` reads the file whose path it
captured; the field holds that path. -/
structure STSWebIdentity where
  Client : Client
  STSEndpoint : String
  GetWebIDTokenExpiry : String
  RoleARN : String
  roleSessionName : String
  deriving DecidableEq, Repr

/-- A `net.IP`: a byte slice, `nil` being `[]`. -/
abbrev IP := List Nat

/-! ## Constants of the file -/

/-- The sentinel window `DefaultExpiryWindow`. -/
def DefaultExpiryWindow : Int := -1

def DefaultIAMRoleEndpoint : String := "http://169.254.169.254"

def DefaultECSRoleEndpoint : String := "http://169.254.170.2"

def DefaultSTSRoleEndpoint : String := "https://sts.amazonaws.com"

def DefaultIAMSecurityCredsPath : String := "/latest/meta-data/iam/security-credentials/"

def TokenRequestTTLHeader : String := "X-aws-ec2-metadata-token-ttl-seconds"

def TokenPath : String := "/latest/api/token"

def TokenTTL : String := "21600"

def TokenRequestHeader : String := "X-aws-ec2-metadata-token"

/-- The constant `http.StatusOK`. -/
def StatusOK : Int := 200

/-! ## Trace and world -/

/-- What a call does, in program order: the fetchers and the validator it enters
(with their arguments) and the effects it performs. -/
inductive Event where
  | webIdentity (creds : STSWebIdentity)
  | getEcsTaskCredentials (client : Client) (endpoint token : String)
  | getEKSPodIdentityCredentials (client : Client) (endpoint tokenFile : String)
  | getCredentials (client : Client) (endpoint : String)
  | isLoopback (uri : String)
  | readFile (name : String)
  | lookupHost (host : String)
  | httpDo (client : Client) (req : Request)
  | setExpiration (expiration : Time) (window : Int)
  deriving DecidableEq, Repr

/-- A Go result pair together with the trace after the call. -/
structure Ret (α : Type) where
  val : α
  err : Option Error
  trace : List Event

/-- Everything the file takes from outside itself.  `clientDo` sees the trace so
far, so a transport may answer differently each time.  `webIdentity` is
`(*STSWebIdentity).RetrieveWithCredContext` followed by `creds.Expiration()`. -/
structure World where
  getenv : String → String
  readFile : String → Except Error String
  lookupHost : String → Except Error (List String)
  urlParse : String → Except Error URL
  urlString : URL → String
  urlHostname : URL → String
  pathJoin : String → String → String
  parseIP : String → IP
  scanLines : Body → Except Error (List String)
  decode : Body → Except Error ec2RoleCredRespBody
  clientDo : Client → List Event → Request → Except Error Response
  webIdentity : STSWebIdentity → CredContext → List Event → Value × Option Error × Time
  defaultClient : Client

/-- Modelled from the spec: the package variable `defaultCredContext`, declared outside
`iam_aws.go`; its client is the default HTTP client, which is not nil. -/
def defaultCredContext (W : World) : CredContext := ⟨some W.defaultClient⟩

/-! ## Library functions with a fixed meaning -/

/-- Go `strings.HasPrefix s p`. -/
def stringsHasPrefix (s p : String) : Bool := p.data.isPrefixOf s.data

/-- Go `io.ReadAll` on a response body. -/
def readAll (b : Body) : Except Error String :=
  match b.readErr with
  | some e => .error e
  | none => .ok b.data

/-- Go `http.NewRequest method url nil`: fails exactly when the URL does not parse. -/
def NewRequest (W : World) (method url : String) : Except Error Request :=
  match W.urlParse url with
  | .error e => .error e
  | .ok _ => .ok ⟨method, url, []⟩

/-- Go `Header.Add` and `Header.Set` on a key the request does not hold yet. -/
def Request.addHeader (req : Request) (key value : String) : Request :=
  { req with Header := req.Header ++ [(key, value)] }

/-- Go `IP.To4`. -/
def IP.To4 (ip : IP) : IP :=
  if ip.length = 4 then ip
  else if ip.length = 16 ∧ ip.take 12 = [0, 0, 0, 0, 0, 0, 0, 0, 0, 0, 255, 255] then
    ip.drop 12
  else []

/-- The address `net.IPv6loopback`. -/
def IPv6loopback : IP := [0, 0, 0, 0, 0, 0, 0, 0, 0, 0, 0, 0, 0, 0, 0, 1]

/-- Go `IP.IsLoopback`. -/
def IP.IsLoopback (ip : IP) : Bool :=
  match IP.To4 ip with
  | b :: _ => decide (b = 127)
  | [] => decide (ip = IPv6loopback)

/-! ## The functions of the file -/

/-- The locals that lines 104-142 of `RetrieveWithCredContext` compute from the
environment and the struct fields. -/
structure Locals where
  token : String
  tokenFile : String
  relativeURI : String
  fullURI : String
  identityFile : String
  roleArn : String
  roleSessionName : String
  region : String
  deriving DecidableEq, Repr

/-- Lines 104-142 of `RetrieveWithCredContext`: each local is its environment
variable, replaced by a struct field when the variable is empty. -/
def resolveLocals (W : World) (m : IAM) : Locals :=
  let token := W.getenv "AWS_CONTAINER_AUTHORIZATION_TOKEN"
  let token := if token = "" then m.Container.AuthorizationToken else token
  let tokenFile := W.getenv "AWS_CONTAINER_AUTHORIZATION_TOKEN_FILE"
  let tokenFile := if tokenFile = "" then m.Container.AuthorizationToken else tokenFile
  let relativeURI := W.getenv "AWS_CONTAINER_CREDENTIALS_RELATIVE_URI"
  let relativeURI := if relativeURI = "" then m.Container.CredentialsRelativeURI else relativeURI
  let fullURI := W.getenv "AWS_CONTAINER_CREDENTIALS_FULL_URI"
  let fullURI := if fullURI = "" then m.Container.CredentialsFullURI else fullURI
  let identityFile := W.getenv "AWS_WEB_IDENTITY_TOKEN_FILE"
  let identityFile := if identityFile = "" then m.EKSIdentity.TokenFile else identityFile
  let roleArn := W.getenv "AWS_ROLE_ARN"
  let roleArn := if roleArn = "" then m.EKSIdentity.RoleARN else roleArn
  let roleSessionName := W.getenv "AWS_ROLE_SESSION_NAME"
  let roleSessionName := if roleSessionName = "" then m.EKSIdentity.RoleSessionName
    else roleSessionName
  let region := W.getenv "AWS_REGION"
  let region := if region = "" then m.Region else region
  ⟨token, tokenFile, relativeURI, fullURI, identityFile, roleArn, roleSessionName, region⟩

/-- Lines 147-153 of `RetrieveWithCredContext`: the client of the struct, else the one
of the context, else the default one. -/
def selectClient (W : World) (m : IAM) (cc : CredContext) : Client :=
  match m.Client with
  | some c => c
  | none =>
    match cc.Client with
    | some c => c
    | none => W.defaultClient

/-- The loop of `isLoopback` over the resolved addresses. -/
def isLoopbackLoop (W : World) : List String → Bool
  | [] => true
  | ip :: ips => if !(IP.IsLoopback (W.parseIP ip)) then false else isLoopbackLoop W ips

/-- The function `isLoopback`. -/
def isLoopback (W : World) (uri : String) (tr : List Event) : Ret Bool :=
  let tr := tr ++ [Event.isLoopback uri]
  match W.urlParse uri with
  | .error err => ⟨false, some err, tr⟩
  | .ok u =>
    let host := W.urlHostname u
    if host.length = 0 then
      ⟨false, some (.msg ("can\x27t parse host from uri: " ++ uri)), tr⟩
    else
      let tr := tr ++ [Event.lookupHost host]
      match W.lookupHost host with
      | .error err => ⟨false, some err, tr⟩
      | .ok ips => ⟨isLoopbackLoop W ips, none, tr⟩

/-- The function `getIAMRoleURL`. -/
def getIAMRoleURL (W : World) (endpoint : String) : Except Error URL :=
  match W.urlParse endpoint with
  | .error err => .error err
  | .ok u => .ok { u with Path := DefaultIAMSecurityCredsPath }

/-- The function `listRoleNames`. -/
def listRoleNames (W : World) (client : Client) (u : URL) (token : String)
    (tr : List Event) : Ret (List String) :=
  match NewRequest W "GET" (W.urlString u) with
  | .error err => ⟨[], some err, tr⟩
  | .ok req =>
    let req := if token ≠ "" then req.addHeader TokenRequestHeader token else req
    let tr1 := tr ++ [Event.httpDo client req]
    match W.clientDo client tr req with
    | .error err => ⟨[], some err, tr1⟩
    | .ok resp =>
      if resp.StatusCode ≠ StatusOK then ⟨[], some (.msg resp.Status), tr1⟩
      else
        match W.scanLines resp.Body with
        | .error err => ⟨[], some err, tr1⟩
        | .ok credsList => ⟨credsList, none, tr1⟩

/-- The function `getEcsTaskCredentials`. -/
def getEcsTaskCredentials (W : World) (client : Client) (endpoint token : String)
    (tr : List Event) : Ret ec2RoleCredRespBody :=
  let tr := tr ++ [Event.getEcsTaskCredentials client endpoint token]
  match NewRequest W "GET" endpoint with
  | .error err => ⟨.zero, some err, tr⟩
  | .ok req =>
    let req := if token ≠ "" then req.addHeader "Authorization" token else req
    let tr1 := tr ++ [Event.httpDo client req]
    match W.clientDo client tr req with
    | .error err => ⟨.zero, some err, tr1⟩
    | .ok resp =>
      if resp.StatusCode ≠ StatusOK then ⟨.zero, some (.msg resp.Status), tr1⟩
      else
        match W.decode resp.Body with
        | .error err => ⟨.zero, some err, tr1⟩
        | .ok respCreds => ⟨respCreds, none, tr1⟩

/-- The function `getEKSPodIdentityCredentials`. -/
def getEKSPodIdentityCredentials (W : World) (client : Client) (endpoint tokenFile : String)
    (tr : List Event) : Ret ec2RoleCredRespBody :=
  let tr := tr ++ [Event.getEKSPodIdentityCredentials client endpoint tokenFile]
  if tokenFile ≠ "" then
    let tr := tr ++ [Event.readFile tokenFile]
    match W.readFile tokenFile with
    | .error err =>
      ⟨.zero, some (.msg ("getEKSPodIdentityCredentials: failed to read token file:"
        ++ err.text)), tr⟩
    | .ok bytes => getEcsTaskCredentials W client endpoint bytes tr
  else ⟨.zero, some (.msg "getEKSPodIdentityCredentials: no tokenFile found"), tr⟩

/-- The function `fetchIMDSToken`. -/
def fetchIMDSToken (W : World) (client : Client) (endpoint : String) (tr : List Event) :
    Ret String :=
  match NewRequest W "PUT" (endpoint ++ TokenPath) with
  | .error err => ⟨"", some err, tr⟩
  | .ok req =>
    let req := req.addHeader TokenRequestTTLHeader TokenTTL
    let tr1 := tr ++ [Event.httpDo client req]
    match W.clientDo client tr req with
    | .error err => ⟨"", some err, tr1⟩
    | .ok resp =>
      match readAll resp.Body with
      | .error err => ⟨"", some err, tr1⟩
      | .ok data =>
        if resp.StatusCode ≠ StatusOK then ⟨"", some (.msg resp.Status), tr1⟩
        else ⟨data, none, tr1⟩

/-- The function `getCredentials`.  The test `err != nil` with the two `errors.Is`
tests inside it is one `Option.any` on the error of the handshake. -/
def getCredentials (W : World) (client : Client) (endpoint : String) (tr : List Event) :
    Ret ec2RoleCredRespBody :=
  let tr := tr ++ [Event.getCredentials client endpoint]
  let endpoint := if endpoint = "" then DefaultIAMRoleEndpoint else endpoint
  let t := fetchIMDSToken W client endpoint tr
  let token := t.val
  if t.err.any (fun err =>
      !errorsIs err .deadlineExceeded && !errorsIs err .canceled) then
    ⟨.zero, t.err, t.trace⟩
  else
    match getIAMRoleURL W endpoint with
    | .error err => ⟨.zero, some err, t.trace⟩
    | .ok u =>
      let l := listRoleNames W client u token t.trace
      match l.err with
      | some err => ⟨.zero, some err, l.trace⟩
      | none =>
        match l.val with
        | [] => ⟨.zero, some (.msg "No IAM roles attached to this EC2 service"), l.trace⟩
        | roleName :: _ =>
          let u := { u with Path := W.pathJoin u.Path roleName }
          match NewRequest W "GET" (W.urlString u) with
          | .error err => ⟨.zero, some err, l.trace⟩
          | .ok req =>
            let req := if token ≠ "" then req.addHeader TokenRequestHeader token else req
            let tr1 := l.trace ++ [Event.httpDo client req]
            match W.clientDo client l.trace req with
            | .error err => ⟨.zero, some err, tr1⟩
            | .ok resp =>
              if resp.StatusCode ≠ StatusOK then ⟨.zero, some (.msg resp.Status), tr1⟩
              else
                match W.decode resp.Body with
                | .error err => ⟨.zero, some err, tr1⟩
                | .ok respCreds =>
                  if respCreds.Code ≠ "Success" then
                    ⟨.zero, some (.msg respCreds.Message), tr1⟩
                  else ⟨respCreds, none, tr1⟩

/-- Lines 159-169 of `RetrieveWithCredContext`: the STS endpoint of the web-identity
branch, from the struct field `Endpoint` and the region. -/
def stsEndpoint (endpoint region : String) : String :=
  if endpoint.length = 0 then
    if region ≠ "" then
      if stringsHasPrefix region "cn-" then "https://sts." ++ region ++ ".amazonaws.com.cn"
      else "https://sts." ++ region ++ ".amazonaws.com"
    else DefaultSTSRoleEndpoint
  else endpoint

/-- Lines 221-233 of `RetrieveWithCredContext`: what follows the `switch` for the
branches that leave their result in `roleCreds` and `err`. -/
def returnRoleCreds (r : Ret ec2RoleCredRespBody) : Ret Value :=
  match r.err with
  | some err => ⟨.zero, some err, r.trace⟩
  | none =>
    ⟨⟨r.val.AccessKeyID, r.val.SecretAccessKey, r.val.Token, r.val.Expiration, .SignatureV4⟩,
      none, r.trace ++ [Event.setExpiration r.val.Expiration DefaultExpiryWindow]⟩

/-- The method `(*IAM).RetrieveWithCredContext`; `cc = none` is the nil context.  The
trace starts empty: it is the trace of this call. -/
def RetrieveWithCredContext (W : World) (m : IAM) (cc : Option CredContext) : Ret Value :=
  let cc := match cc with
    | none => defaultCredContext W
    | some c => c
  let l := resolveLocals W m
  let client := selectClient W m cc
  let endpoint := m.Endpoint
  if l.identityFile ≠ "" then
    let endpoint := stsEndpoint endpoint l.region
    let creds : STSWebIdentity := ⟨client, endpoint, l.identityFile, l.roleArn, l.roleSessionName⟩
    let tr := [Event.webIdentity creds]
    let r := W.webIdentity creds cc tr
    match r.2.1 with
    | none => ⟨r.1, none, tr ++ [Event.setExpiration r.2.2 DefaultExpiryWindow]⟩
    | some err => ⟨r.1, some err, tr⟩
  else if l.relativeURI ≠ "" then
    let endpoint :=
      if endpoint.length = 0 then DefaultECSRoleEndpoint ++ l.relativeURI else endpoint
    returnRoleCreds (getEcsTaskCredentials W client endpoint l.token [])
  else if l.tokenFile ≠ "" ∧ l.fullURI ≠ "" then
    returnRoleCreds (getEKSPodIdentityCredentials W client l.fullURI l.tokenFile [])
  else if l.fullURI ≠ "" then
    if endpoint.length = 0 then
      let endpoint := l.fullURI
      let v := isLoopback W endpoint []
      if !v.val then
        match v.err with
        | none =>
          returnRoleCreds ⟨.zero,
            some (.msg ("uri host is not a loopback address: " ++ endpoint)), v.trace⟩
        | some err => returnRoleCreds ⟨.zero, some err, v.trace⟩
      else returnRoleCreds (getEcsTaskCredentials W client endpoint l.token v.trace)
    else returnRoleCreds (getEcsTaskCredentials W client endpoint l.token [])
  else returnRoleCreds (getCredentials W client endpoint [])

/-! ## A concrete world

A world to evaluate the functions in: a model of the Go library functions on
everyday inputs (URLs without percent-escapes, IPv4 literals), a resolver that
maps every host name to itself, and a small table-driven transport.
-/

/-- Go `url.Parse`, step `getScheme`: the scheme before the first colon, if the text
up to it is a scheme. -/
def goGetScheme (raw : List Char) : List Char → List Char → Except Error (List Char × List Char)
  | _, [] => .ok ([], raw)
  | acc, c :: cs =>
    if c.isAlpha then goGetScheme raw (c :: acc) cs
    else if c.isDigit || c == '+' || c == '-' || c == '.' then
      if acc.isEmpty then .ok ([], raw) else goGetScheme raw (c :: acc) cs
    else if c == ':' then
      if acc.isEmpty then .error (.msg "missing protocol scheme") else .ok (acc.reverse, cs)
    else .ok ([], raw)

/-- The part of a character list after the last occurrence of `c`, and the part
before it; `none` when `c` does not occur. -/
def cutLast (c : Char) : List Char → Option (List Char × List Char)
  | [] => none
  | x :: xs =>
    match cutLast c xs with
    | some (pre, post) => some (x :: pre, post)
    | none => if x == c then some ([], xs) else none

/-- Go `validOptionalPort` on the text after the last colon of a host. -/
def goValidPort (port : List Char) : Bool := port.all Char.isDigit

/-- Go `url.Parse` on a URL without percent-escapes. -/
def goUrlParse (rawURL : String) : Except Error URL :=
  let pre := "parse \"" ++ rawURL ++ "\""
  let (u, frag) := rawURL.data.span (fun c => c != '#')
  if rawURL.data.any (fun c => c.toNat < 32 || c.toNat == 127) then
    .error (.wrap pre (.msg "net/url: invalid control character in URL"))
  else
    match goGetScheme u [] u with
    | .error e => .error (.wrap pre e)
    | .ok (scheme, rest) =>
      let (rest, query) := rest.span (fun c => c != '?')
      match rest with
      | '/' :: '/' :: r =>
        let (authority, path) := r.span (fun c => c != '/')
        let (user, host) :=
          match cutLast '@' authority with
          | some (us, h) => (us, h)
          | none => ([], authority)
        match cutLast ':' host with
        | some (_, port) =>
          if host.head? != some '[' || host.getLast? != some ']' then
            if goValidPort port then
              .ok ⟨String.mk (scheme.map Char.toLower), "", String.mk user, String.mk host,
                String.mk path, "", String.mk (query.drop 1), String.mk (frag.drop 1)⟩
            else .error (.wrap pre (.msg ("invalid port \":" ++ String.mk port
              ++ "\" after host")))
          else
            .ok ⟨String.mk (scheme.map Char.toLower), "", String.mk user, String.mk host,
              String.mk path, "", String.mk (query.drop 1), String.mk (frag.drop 1)⟩
        | none =>
          .ok ⟨String.mk (scheme.map Char.toLower), "", String.mk user, String.mk host,
            String.mk path, "", String.mk (query.drop 1), String.mk (frag.drop 1)⟩
      | '/' :: _ =>
        .ok ⟨String.mk (scheme.map Char.toLower), "", "", "", String.mk rest, "",
          String.mk (query.drop 1), String.mk (frag.drop 1)⟩
      | _ =>
        if scheme.isEmpty then
          .ok ⟨"", "", "", "", String.mk rest, "", String.mk (query.drop 1),
            String.mk (frag.drop 1)⟩
        else
          .ok ⟨String.mk (scheme.map Char.toLower), String.mk rest, "", "", "", "",
            String.mk (query.drop 1), String.mk (frag.drop 1)⟩

/-- Go `URL.Hostname`: the host without a valid port and without square brackets. -/
def goUrlHostname (u : URL) : String :=
  let host :=
    match cutLast ':' u.Host.data with
    | some (h, port) => if goValidPort port then h else u.Host.data
    | none => u.Host.data
  match host with
  | '[' :: r => if r.getLast? == some ']' then String.mk r.dropLast else String.mk host
  | _ => String.mk host

/-- Go `URL.String` on a URL with a scheme and a host. -/
def goUrlString (u : URL) : String :=
  u.Scheme ++ "://" ++ u.Host ++ u.Path ++ (if u.RawQuery = "" then "" else "?" ++ u.RawQuery)

/-- Go `path.Join` of a clean directory path and a plain name. -/
def goPathJoin (dir name : String) : String :=
  if dir.data.getLast? == some '/' then dir ++ name else dir ++ "/" ++ name

/-- The fields of a character list separated by `sep`. -/
def splitOn (sep : Char) : List Char → List (List Char)
  | [] => [[]]
  | c :: cs =>
    if c == sep then [] :: splitOn sep cs
    else
      match splitOn sep cs with
      | f :: fs => (c :: f) :: fs
      | [] => [[c]]

/-- The value of a decimal field of an IPv4 literal: one to three digits, no leading
zero, at most 255. -/
def goDecimalByte (f : List Char) : Option Nat :=
  if f.isEmpty || f.length > 3 || !f.all Char.isDigit || (f.length > 1 && f.head? == some '0')
  then none
  else
    let n := f.foldl (fun a c => 10 * a + (c.toNat - 48)) 0
    if n > 255 then none else some n

/-- Go `net.ParseIP` on IPv4 literals (the 16-byte form); any other text is `nil`. -/
def goParseIPv4 (s : String) : IP :=
  match (splitOn '.' s.data).map goDecimalByte with
  | [some a, some b, some c, some d] => [0, 0, 0, 0, 0, 0, 0, 0, 0, 0, 255, 255, a, b, c, d]
  | _ => []

/-- Go `bufio.Scanner` with the default line splitter, on short lines without
carriage returns. -/
def goScanLines (b : Body) : Except Error (List String) :=
  match b.readErr with
  | some e => .error e
  | none =>
    let fields := splitOn (Char.ofNat 10) b.data.data
    .ok ((if fields.getLast? == some [] then fields.dropLast else fields).map String.mk)

/-- A credentials document with code `Success`. -/
def successCreds : ec2RoleCredRespBody :=
  ⟨⟨1893456000⟩, "AK", "SK", "TK", "Success", "", ⟨0⟩, ""⟩

/-- A credentials document with code `Failure` and message `x`. -/
def failureCreds : ec2RoleCredRespBody :=
  ⟨⟨0⟩, "", "", "", "Failure", "x", ⟨0⟩, ""⟩

/-- A decoder that knows two documents by name. -/
def tableDecode (b : Body) : Except Error ec2RoleCredRespBody :=
  if b.data = "success-document" then .ok successCreds
  else if b.data = "failure-document" then .ok failureCreds
  else .error (.msg "invalid character")

/-- A transport.  The metadata address `169.254.169.254` serves a token, the role
`s3access` and its credentials; `10.0.0.1` does the same but its token
endpoint times out; the token endpoint of `10.0.0.2` answers 500; `10.0.0.3`
serves a token and a role whose credentials document has code `Failure`.
Three container endpoints answer 200, every other URL 403. -/
def tableDo (_client : Client) (_tr : List Event) (req : Request) : Except Error Response :=
  if req.Method = "PUT" then
    if req.URL = "http://169.254.169.254/latest/api/token" then
      .ok ⟨200, "200 OK", ⟨"imds-token", none⟩⟩
    else if req.URL = "http://10.0.0.1/latest/api/token" then
      .error (.wrap "Put" .deadlineExceeded)
    else if req.URL = "http://10.0.0.3/latest/api/token" then
      .ok ⟨200, "200 OK", ⟨"imds-token", none⟩⟩
    else .ok ⟨500, "500 Internal Server Error", ⟨"", none⟩⟩
  else if req.URL = "http://169.254.169.254/latest/meta-data/iam/security-credentials/" then
    .ok ⟨200, "200 OK", ⟨"s3access\n", none⟩⟩
  else if req.URL = "http://169.254.169.254/latest/meta-data/iam/security-credentials/s3access" then
    .ok ⟨200, "200 OK", ⟨"success-document", none⟩⟩
  else if req.URL = "http://10.0.0.1/latest/meta-data/iam/security-credentials/" then
    .ok ⟨200, "200 OK", ⟨"s3access\n", none⟩⟩
  else if req.URL = "http://10.0.0.1/latest/meta-data/iam/security-credentials/s3access" then
    .ok ⟨200, "200 OK", ⟨"success-document", none⟩⟩
  else if req.URL = "http://10.0.0.3/latest/meta-data/iam/security-credentials/" then
    .ok ⟨200, "200 OK", ⟨"s3access\n", none⟩⟩
  else if req.URL = "http://10.0.0.3/latest/meta-data/iam/security-credentials/s3access" then
    .ok ⟨200, "200 OK", ⟨"failure-document", none⟩⟩
  else if req.URL = "http://127.0.0.1:9000/creds" then
    .ok ⟨200, "200 OK", ⟨"success-document", none⟩⟩
  else if req.URL = "http://169.254.170.2/v2/creds" then
    .ok ⟨200, "200 OK", ⟨"failure-document", none⟩⟩
  else if req.URL = "http://custom.example/creds" then
    .ok ⟨200, "200 OK", ⟨"success-document", none⟩⟩
  else .ok ⟨403, "403 Forbidden", ⟨"", none⟩⟩

/-- A web-identity provider that fails when no role is named. -/
def tableWebIdentity (creds : STSWebIdentity) (_cc : CredContext) (_tr : List Event) :
    Value × Option Error × Time :=
  if creds.RoleARN = "" then (Value.zero, some (.msg "missing role"), ⟨0⟩)
  else (⟨"WAK", "WSK", "WTK", ⟨1893456000⟩, .SignatureV4⟩, none, ⟨1893456000⟩)

/-- The concrete world: an empty environment, no readable file except
`/var/run/token`, and the functions above. -/
def goWorld : World where
  getenv := fun _ => ""
  readFile := fun name =>
    if name = "/var/run/token" then .ok "file-token" else .error (.msg "no such file")
  lookupHost := fun host => .ok [host]
  urlParse := goUrlParse
  urlString := goUrlString
  urlHostname := goUrlHostname
  pathJoin := goPathJoin
  parseIP := goParseIPv4
  scanLines := goScanLines
  decode := tableDecode
  clientDo := tableDo
  webIdentity := tableWebIdentity
  defaultClient := ⟨0⟩

/-- An `IAM` with every field empty. -/
def emptyIAM : IAM := ⟨none, "", "", ⟨"", "", "", ""⟩, ⟨"", "", ""⟩⟩

/-! ## Reading a trace and a configuration -/

/-- The effective value of a setting: the environment variable when it is non-empty,
and otherwise the struct field. -/
def effective (env field : String) : String := if env ≠ "" then env else field

/-- The effective web-identity token file. -/
def effIdentityFile (W : World) (m : IAM) : String :=
  effective (W.getenv "AWS_WEB_IDENTITY_TOKEN_FILE") m.EKSIdentity.TokenFile

/-- The effective container relative URI. -/
def effRelativeURI (W : World) (m : IAM) : String :=
  effective (W.getenv "AWS_CONTAINER_CREDENTIALS_RELATIVE_URI") m.Container.CredentialsRelativeURI

/-- The effective container full URI. -/
def effFullURI (W : World) (m : IAM) : String :=
  effective (W.getenv "AWS_CONTAINER_CREDENTIALS_FULL_URI") m.Container.CredentialsFullURI

/-- The effective container authorization token. -/
def effToken (W : World) (m : IAM) : String :=
  effective (W.getenv "AWS_CONTAINER_AUTHORIZATION_TOKEN") m.Container.AuthorizationToken

/-- The effective region. -/
def effRegion (W : World) (m : IAM) : String :=
  effective (W.getenv "AWS_REGION") m.Region

/-- The HTTP requests of a trace, in order. -/
def httpRequests : List Event → List Request
  | [] => []
  | .httpDo _ req :: es => req :: httpRequests es
  | _ :: es => httpRequests es

/-- The `SetExpiration` calls of a trace, in order. -/
def setExpirations : List Event → List (Time × Int)
  | [] => []
  | .setExpiration t w :: es => (t, w) :: setExpirations es
  | _ :: es => setExpirations es

/-- The files read in a trace. -/
def fileReads : List Event → List String
  | [] => []
  | .readFile name :: es => name :: fileReads es
  | _ :: es => fileReads es

/-- The host lookups of a trace. -/
def hostLookups : List Event → List String
  | [] => []
  | .lookupHost host :: es => host :: hostLookups es
  | _ :: es => hostLookups es

/-- The web-identity exchange, the fetchers and the validator a trace enters, in
order. -/
def invoked : List Event → List Event
  | [] => []
  | .webIdentity creds :: es => .webIdentity creds :: invoked es
  | .getEcsTaskCredentials c e t :: es => .getEcsTaskCredentials c e t :: invoked es
  | .getEKSPodIdentityCredentials c e t :: es =>
    .getEKSPodIdentityCredentials c e t :: invoked es
  | .getCredentials c e :: es => .getCredentials c e :: invoked es
  | .isLoopback uri :: es => .isLoopback uri :: invoked es
  | _ :: es => invoked es

/-- The request `getEcsTaskCredentials` builds: a GET of `endpoint` whose only header,
present when `token` is non-empty, is `Authorization` with `token` as its
value. -/
def ecsRequest (endpoint token : String) : Request :=
  ⟨"GET", endpoint, if token ≠ "" then [("Authorization", token)] else []⟩

/-- The context `RetrieveWithCredContext` works with: the default one for `nil`. -/
def contextOf (W : World) (cc : Option CredContext) : CredContext :=
  match cc with
  | none => defaultCredContext W
  | some c => c

/-- A configuration whose authorization token and token file differ, with a full
URI: the token file is `/var/run/token`, the token is `bearer`. -/
def tokenFileIAM : IAM :=
  ⟨none, "", "", ⟨"bearer", "/var/run/token", "http://127.0.0.1:9000/creds", ""⟩, ⟨"", "", ""⟩⟩

/-- A web-identity configuration in a China region, with a relative URI set as
well. -/
def webIdentityIAM : IAM :=
  ⟨none, "", "cn-north-1", ⟨"", "", "", "/v2/creds"⟩, ⟨"/var/run/web-token", "arn:role", "s"⟩⟩

/-- The statement that `getEcsTaskCredentials` issues exactly one request, a GET of
`endpoint`. -/
def IssuesOneGet (W : World) (client : Client) (endpoint token : String) (tr : List Event) :
    Prop :=
  ∃ req, httpRequests ((getEcsTaskCredentials W client endpoint token tr).trace.drop tr.length)
    = [req] ∧ req.Method = "GET" ∧ req.URL = endpoint

/-- A container endpoint that ends in a line feed, as a relative URI taken from an
environment variable may. -/
def lineFeedEndpoint : String := "http://169.254.170.2/v2/creds\n"

/-- An error that is a deadline-exceeded or a cancellation, in the sense of
`errors.Is`. -/
def isTimeoutOrCancel (e : Error) : Prop :=
  errorsIs e .deadlineExceeded = true ∨ errorsIs e .canceled = true

/-- The endpoint `getCredentials` works with: the default one for an empty
argument. -/
def imdsEndpoint (endpoint : String) : String :=
  if endpoint = "" then DefaultIAMRoleEndpoint else endpoint

/-- The token handshake `getCredentials` performs when called after the trace `tr`. -/
def imdsToken (W : World) (client : Client) (endpoint : String) (tr : List Event) :
    Ret String :=
  fetchIMDSToken W client (imdsEndpoint endpoint) (tr ++ [Event.getCredentials client endpoint])

/-- The role-list step `getCredentials` performs for the role URL `u`, with the token
of the handshake. -/
def roleList (W : World) (client : Client) (endpoint : String) (tr : List Event) (u : URL) :
    Ret (List String) :=
  listRoleNames W client u (imdsToken W client endpoint tr).val
    (imdsToken W client endpoint tr).trace

/-- The URL of the role-credentials request: the role name joined to the path of the
role URL. -/
def roleURL (W : World) (u : URL) (roleName : String) : String :=
  W.urlString { u with Path := W.pathJoin u.Path roleName }

/-- A GET of `url` whose only header, present when `token` is non-empty, is the IMDS
token header. -/
def tokenRequest (url token : String) : Request :=
  ⟨"GET", url, if token ≠ "" then [(TokenRequestHeader, token)] else []⟩

/-- The result `f` comes from one of the four sources that return a raw response:
the container-task fetcher, the pod-identity fetcher, the container-task
fetcher after the loopback validator accepted the URI, or the instance-profile
fetcher. -/
def IsRawFetch (W : World) (f : Ret ec2RoleCredRespBody) : Prop :=
  (∃ client endpoint token, f = getEcsTaskCredentials W client endpoint token []) ∨
  (∃ client endpoint tokenFile,
    f = getEKSPodIdentityCredentials W client endpoint tokenFile []) ∨
  (∃ client uri token, (isLoopback W uri []).val = true ∧
    f = getEcsTaskCredentials W client uri token (isLoopback W uri []).trace) ∨
  (∃ client endpoint, f = getCredentials W client endpoint [])

/-- The statement that the loopback validator gates the full URI: with no web-identity
token file, no relative URI, no pod-identity token file and a full URI, a
validator answer of `false` or an error makes the call fail without any HTTP
request. -/
def LoopbackGate (W : World) (m : IAM) (cc : Option CredContext) : Prop :=
  effIdentityFile W m = "" → effRelativeURI W m = "" →
  W.getenv "AWS_CONTAINER_AUTHORIZATION_TOKEN_FILE" = "" →
  m.Container.AuthorizationTokenFile = "" →
  effFullURI W m ≠ "" →
  ((isLoopback W (effFullURI W m) []).val = false ∨
    (isLoopback W (effFullURI W m) []).err ≠ none) →
  (RetrieveWithCredContext W m cc).err ≠ none ∧
  httpRequests (RetrieveWithCredContext W m cc).trace = []

/-- A configuration with a custom endpoint and a full URI whose host is not a
loopback address. -/
def customEndpointIAM : IAM :=
  ⟨none, "http://custom.example/creds", "", ⟨"", "", "http://93.184.216.34/creds", ""⟩,
    ⟨"", "", ""⟩⟩

/-- A configuration with only a full URI, whose host is not a loopback address. -/
def offHostIAM : IAM :=
  ⟨none, "", "", ⟨"", "", "http://93.184.216.34/creds", ""⟩, ⟨"", "", ""⟩⟩

/-- A configuration with only a full URI, on the loopback address. -/
def loopbackIAM : IAM :=
  ⟨none, "", "", ⟨"", "", "http://127.0.0.1:9000/creds", ""⟩, ⟨"", "", ""⟩⟩

/-- A configuration with only a relative URI. -/
def relativeIAM : IAM :=
  ⟨none, "", "", ⟨"", "", "", "/v2/creds"⟩, ⟨"", "", ""⟩⟩

/-- A web-identity configuration without a role. -/
def noRoleIAM : IAM :=
  ⟨none, "", "", ⟨"", "", "", ""⟩, ⟨"/var/run/web-token", "", ""⟩⟩

/-! ## Theorems -/

theorem length_eq_zero_iff (s : String) : s.length = 0 ↔ s = "" := by
  constructor
  · intro h
    have hd : s.data = [] := List.length_eq_zero.mp h
    exact String.ext hd
  · intro h
    rw [h]
    rfl

/-- C3 (the code at the failing input). The token-file local is the environment
variable, replaced when empty by the field `Container.AuthorizationToken`:
the field `Container.AuthorizationTokenFile` is never read.  With the token
`bearer` and the token file `/var/run/token`, the path used is `bearer`, the
file read is `bearer`, and the call fails although `/var/run/token` is
readable. -/
theorem tokenFile_falls_back_to_AuthorizationToken :
    (∀ (W : World) (m : IAM), (resolveLocals W m).tokenFile =
      if W.getenv "AWS_CONTAINER_AUTHORIZATION_TOKEN_FILE" = "" then
        m.Container.AuthorizationToken
      else W.getenv "AWS_CONTAINER_AUTHORIZATION_TOKEN_FILE") ∧
    goWorld.getenv "AWS_CONTAINER_AUTHORIZATION_TOKEN_FILE" = "" ∧
    tokenFileIAM.Container.AuthorizationTokenFile = "/var/run/token" ∧
    (resolveLocals goWorld tokenFileIAM).tokenFile = "bearer" ∧
    fileReads (RetrieveWithCredContext goWorld tokenFileIAM none).trace = ["bearer"] ∧
    (RetrieveWithCredContext goWorld tokenFileIAM none).err = some (.msg
      "getEKSPodIdentityCredentials: failed to read token file:no such file") := by
  refine ⟨fun W m => rfl, by decide, by decide, by decide, by decide, by decide⟩

/-! ### The container fetcher -/

theorem NewRequest_eq_ok {W : World} {method url : String} {req : Request}
    (h : NewRequest W method url = .ok req) : req = ⟨method, url, []⟩ := by
  unfold NewRequest at h
  cases hp : W.urlParse url with
  | error e => simp [hp] at h
  | ok u =>
    simp [hp] at h
    exact h.symm

theorem ecsRequest_eq (endpoint token : String) :
    (if token ≠ "" then (Request.mk "GET" endpoint []).addHeader "Authorization" token
      else Request.mk "GET" endpoint []) = ecsRequest endpoint token := by
  unfold ecsRequest Request.addHeader
  split <;> simp

theorem getEcsTaskCredentials_of_error (W : World) (client : Client) (endpoint token : String)
    (tr : List Event) (e : Error) (h : NewRequest W "GET" endpoint = .error e) :
    getEcsTaskCredentials W client endpoint token tr =
      ⟨.zero, some e, tr ++ [Event.getEcsTaskCredentials client endpoint token]⟩ := by
  unfold getEcsTaskCredentials
  simp [h]

theorem getEcsTaskCredentials_of_ok (W : World) (client : Client) (endpoint token : String)
    (tr : List Event) (req0 : Request) (h : NewRequest W "GET" endpoint = .ok req0) :
    getEcsTaskCredentials W client endpoint token tr =
      match W.clientDo client (tr ++ [Event.getEcsTaskCredentials client endpoint token])
          (ecsRequest endpoint token) with
      | .error err => ⟨.zero, some err, tr ++ [Event.getEcsTaskCredentials client endpoint token,
          Event.httpDo client (ecsRequest endpoint token)]⟩
      | .ok resp =>
        if resp.StatusCode ≠ StatusOK then
          ⟨.zero, some (.msg resp.Status), tr ++ [Event.getEcsTaskCredentials client endpoint token,
            Event.httpDo client (ecsRequest endpoint token)]⟩
        else
          match W.decode resp.Body with
          | .error err => ⟨.zero, some err,
              tr ++ [Event.getEcsTaskCredentials client endpoint token,
                Event.httpDo client (ecsRequest endpoint token)]⟩
          | .ok respCreds => ⟨respCreds, none,
              tr ++ [Event.getEcsTaskCredentials client endpoint token,
                Event.httpDo client (ecsRequest endpoint token)]⟩ := by
  have hr := NewRequest_eq_ok h
  subst hr
  unfold getEcsTaskCredentials
  simp only [h, ecsRequest_eq, List.append_assoc, List.singleton_append]

theorem httpRequests_append (a b : List Event) :
    httpRequests (a ++ b) = httpRequests a ++ httpRequests b := by
  induction a with
  | nil => rfl
  | cons x xs ih => cases x <;> simp [httpRequests, ih]

theorem drop_length_append (a b : List Event) : (a ++ b).drop a.length = b := by
  simp

/-- C9 (as stated, refuted). With an endpoint that `http.NewRequest` rejects, here a
URL ending in a line feed, `getEcsTaskCredentials` returns the construction
error and issues no request at all. -/
theorem getEcsTaskCredentials_not_always_one_get :
    ¬ IssuesOneGet goWorld ⟨0⟩ lineFeedEndpoint "" [] := by
  rintro ⟨req, h, -, -⟩
  have h0 : httpRequests
      ((getEcsTaskCredentials goWorld ⟨0⟩ lineFeedEndpoint "" []).trace.drop ([] : List Event).length)
      = [] := by decide
  rw [h0] at h
  cases h

/-- C9 (amended). `getEcsTaskCredentials client endpoint token` issues no request when
`http.NewRequest` rejects `endpoint` (it returns that error), and otherwise
exactly one: a GET of `endpoint` that carries an `Authorization` header if and
only if `token` is non-empty, with `token` itself as the value.  A transport
error is returned as it is, a status other than 200 gives the error whose text
is the status text, and a 200 response whose body decodes is returned as
decoded, whatever its `Code`. -/
theorem getEcsTaskCredentials_request (W : World) (client : Client) (endpoint token : String)
    (tr : List Event) :
    (∀ e, NewRequest W "GET" endpoint = .error e →
      (getEcsTaskCredentials W client endpoint token tr).val = .zero ∧
      (getEcsTaskCredentials W client endpoint token tr).err = some e ∧
      httpRequests ((getEcsTaskCredentials W client endpoint token tr).trace.drop tr.length)
        = []) ∧
    (∀ req0, NewRequest W "GET" endpoint = .ok req0 →
      httpRequests ((getEcsTaskCredentials W client endpoint token tr).trace.drop tr.length)
        = [ecsRequest endpoint token] ∧
      (∀ e, W.clientDo client (tr ++ [Event.getEcsTaskCredentials client endpoint token])
          (ecsRequest endpoint token) = .error e →
        (getEcsTaskCredentials W client endpoint token tr).val = .zero ∧
        (getEcsTaskCredentials W client endpoint token tr).err = some e) ∧
      (∀ resp, W.clientDo client (tr ++ [Event.getEcsTaskCredentials client endpoint token])
          (ecsRequest endpoint token) = .ok resp →
        (resp.StatusCode ≠ StatusOK →
          (getEcsTaskCredentials W client endpoint token tr).val = .zero ∧
          ∃ err, (getEcsTaskCredentials W client endpoint token tr).err = some err ∧
            err.text = resp.Status) ∧
        (resp.StatusCode = StatusOK → ∀ body, W.decode resp.Body = .ok body →
          (getEcsTaskCredentials W client endpoint token tr).val = body ∧
          (getEcsTaskCredentials W client endpoint token tr).err = none))) ∧
    (ecsRequest endpoint token).Method = "GET" ∧
    (ecsRequest endpoint token).URL = endpoint ∧
    (token ≠ "" → (ecsRequest endpoint token).Header = [("Authorization", token)]) ∧
    (token = "" → (ecsRequest endpoint token).Header = []) := by
  refine ⟨?_, ?_, rfl, rfl, ?_, ?_⟩
  · intro e he
    rw [getEcsTaskCredentials_of_error W client endpoint token tr e he]
    simp [httpRequests]
  · intro req0 hreq
    rw [getEcsTaskCredentials_of_ok W client endpoint token tr req0 hreq]
    refine ⟨?_, ?_, ?_⟩
    · cases hd : W.clientDo client (tr ++ [Event.getEcsTaskCredentials client endpoint token])
          (ecsRequest endpoint token) with
      | error err => simp [httpRequests]
      | ok resp =>
        by_cases hs : resp.StatusCode = StatusOK
        · cases hdec : W.decode resp.Body <;> simp [hs, hdec, httpRequests]
        · simp [hs, httpRequests]
    · intro e hd
      simp [hd]
    · intro resp hd
      refine ⟨?_, ?_⟩
      · intro hs
        simp [hd, hs, Error.text]
      · intro hs body hdec
        simp [hd, hs, hdec]
  · intro ht
    simp [ecsRequest, ht]
  · intro ht
    simp [ecsRequest, ht]

/-- C9 (amended), at a concrete input: the container endpoint of the concrete world
answers 200 with a document whose code is `Failure`, and the document is
returned as a successful result. -/
theorem getEcsTaskCredentials_request_witness :
    (getEcsTaskCredentials goWorld ⟨0⟩ "http://169.254.170.2/v2/creds" "tok" []).val
      = failureCreds ∧
    (getEcsTaskCredentials goWorld ⟨0⟩ "http://169.254.170.2/v2/creds" "tok" []).err = none :=
  ((getEcsTaskCredentials_request goWorld ⟨0⟩ "http://169.254.170.2/v2/creds" "tok" []).2.1
    ⟨"GET", "http://169.254.170.2/v2/creds", []⟩ (by rfl)).2.2
    ⟨200, "200 OK", ⟨"failure-document", none⟩⟩ (by rfl) |>.2 (by decide) failureCreds
    (by rfl)

/-! ### The loopback validator -/

theorem isLoopbackLoop_eq_true_iff (W : World) (ips : List String) :
    isLoopbackLoop W ips = true ↔ ∀ ip ∈ ips, IP.IsLoopback (W.parseIP ip) = true := by
  induction ips with
  | nil => simp [isLoopbackLoop]
  | cons ip rest ih =>
    cases h : IP.IsLoopback (W.parseIP ip) <;> simp [isLoopbackLoop, h, ih]

theorem isLoopbackLoop_eq_false_iff (W : World) (ips : List String) :
    isLoopbackLoop W ips = false ↔ ∃ ip ∈ ips, IP.IsLoopback (W.parseIP ip) = false := by
  induction ips with
  | nil => simp [isLoopbackLoop]
  | cons ip rest ih =>
    cases h : IP.IsLoopback (W.parseIP ip) <;> simp [isLoopbackLoop, h, ih]

/-- C4. `isLoopback uri`, over any URL parser, resolver and IP parser: it returns an
error when the URI does not parse, when the host is empty and when the
resolution fails; otherwise it returns no error, `true` exactly when every
resolved address is a loopback address and `false` exactly when one of them is
not, an address that does not parse as an IP being one that is not.  In the
concrete world, whose resolver maps every name to itself, the validator
accepts `http://127.0.0.1:9000/creds`, rejects `http://93.184.216.34/creds`
and fails on `http://`. -/
theorem isLoopback_spec (W : World) (uri : String) (tr : List Event) :
    (∀ e, W.urlParse uri = .error e →
      (isLoopback W uri tr).val = false ∧ (isLoopback W uri tr).err = some e) ∧
    (∀ u, W.urlParse uri = .ok u → W.urlHostname u = "" →
      (isLoopback W uri tr).val = false ∧ (isLoopback W uri tr).err ≠ none) ∧
    (∀ u e, W.urlParse uri = .ok u → W.urlHostname u ≠ "" →
      W.lookupHost (W.urlHostname u) = .error e →
      (isLoopback W uri tr).val = false ∧ (isLoopback W uri tr).err = some e) ∧
    (∀ u ips, W.urlParse uri = .ok u → W.urlHostname u ≠ "" →
      W.lookupHost (W.urlHostname u) = .ok ips →
      (isLoopback W uri tr).err = none ∧
      ((isLoopback W uri tr).val = true ↔
        ∀ ip ∈ ips, IP.IsLoopback (W.parseIP ip) = true) ∧
      ((isLoopback W uri tr).val = false ↔
        ∃ ip ∈ ips, IP.IsLoopback (W.parseIP ip) = false)) ∧
    (∀ s, W.parseIP s = [] → IP.IsLoopback (W.parseIP s) = false) ∧
    (∀ host, goWorld.lookupHost host = .ok [host]) ∧
    ((isLoopback goWorld "http://127.0.0.1:9000/creds" []).val = true ∧
      (isLoopback goWorld "http://127.0.0.1:9000/creds" []).err = none) ∧
    ((isLoopback goWorld "http://93.184.216.34/creds" []).val = false ∧
      (isLoopback goWorld "http://93.184.216.34/creds" []).err = none) ∧
    (isLoopback goWorld "http://" []).err ≠ none := by
  refine ⟨?_, ?_, ?_, ?_, ?_, fun _ => rfl, by decide, by decide, by decide⟩
  · intro e he
    simp [isLoopback, he]
  · intro u hu hh
    simp [isLoopback, hu, hh]
  · intro u e hu hh hl
    have hlen : ¬ (W.urlHostname u).length = 0 := fun h => hh ((length_eq_zero_iff _).mp h)
    simp [isLoopback, hu, hlen, hl]
  · intro u ips hu hh hl
    have hlen : ¬ (W.urlHostname u).length = 0 := fun h => hh ((length_eq_zero_iff _).mp h)
    have hv : (isLoopback W uri tr).val = isLoopbackLoop W ips := by
      simp [isLoopback, hu, hlen, hl]
    refine ⟨by simp [isLoopback, hu, hlen, hl], ?_, ?_⟩
    · rw [hv]
      exact isLoopbackLoop_eq_true_iff W ips
    · rw [hv]
      exact isLoopbackLoop_eq_false_iff W ips
  · intro s hs
    rw [hs]
    decide

/-- C4, at a concrete input: the URI `http://127.0.0.1:9000/creds` parses, its host
`127.0.0.1` resolves to itself, and the validator returns `true`. -/
theorem isLoopback_spec_witness :
    (isLoopback goWorld "http://127.0.0.1:9000/creds" []).val = true :=
  ((isLoopback_spec goWorld "http://127.0.0.1:9000/creds" []).2.2.2.1
    ⟨"http", "", "", "127.0.0.1:9000", "/creds", "", "", ""⟩ ["127.0.0.1"]
    (by rfl) (by decide) (by rfl)).2.1.mpr (by decide)

/-! ### The locals and the selection -/

theorem effective_eq (env field : String) :
    (if env = "" then field else env) = effective env field := by
  unfold effective
  by_cases h : env = "" <;> simp [h]

theorem resolveLocals_identityFile (W : World) (m : IAM) :
    (resolveLocals W m).identityFile =
      effective (W.getenv "AWS_WEB_IDENTITY_TOKEN_FILE") m.EKSIdentity.TokenFile :=
  effective_eq _ _

theorem resolveLocals_relativeURI (W : World) (m : IAM) :
    (resolveLocals W m).relativeURI =
      effective (W.getenv "AWS_CONTAINER_CREDENTIALS_RELATIVE_URI")
        m.Container.CredentialsRelativeURI :=
  effective_eq _ _

theorem resolveLocals_fullURI (W : World) (m : IAM) :
    (resolveLocals W m).fullURI =
      effective (W.getenv "AWS_CONTAINER_CREDENTIALS_FULL_URI") m.Container.CredentialsFullURI :=
  effective_eq _ _

theorem resolveLocals_region (W : World) (m : IAM) :
    (resolveLocals W m).region = effective (W.getenv "AWS_REGION") m.Region :=
  effective_eq _ _

theorem resolveLocals_token (W : World) (m : IAM) :
    (resolveLocals W m).token =
      effective (W.getenv "AWS_CONTAINER_AUTHORIZATION_TOKEN") m.Container.AuthorizationToken :=
  effective_eq _ _

theorem resolveLocals_tokenFile (W : World) (m : IAM) :
    (resolveLocals W m).tokenFile =
      effective (W.getenv "AWS_CONTAINER_AUTHORIZATION_TOKEN_FILE")
        m.Container.AuthorizationToken :=
  effective_eq _ _

theorem Retrieve_webIdentity (W : World) (m : IAM) (cc : Option CredContext)
    (h : (resolveLocals W m).identityFile ≠ "") :
    RetrieveWithCredContext W m cc =
      match (W.webIdentity ⟨selectClient W m (contextOf W cc),
          stsEndpoint m.Endpoint (resolveLocals W m).region, (resolveLocals W m).identityFile,
          (resolveLocals W m).roleArn, (resolveLocals W m).roleSessionName⟩ (contextOf W cc)
          [Event.webIdentity ⟨selectClient W m (contextOf W cc),
            stsEndpoint m.Endpoint (resolveLocals W m).region, (resolveLocals W m).identityFile,
            (resolveLocals W m).roleArn, (resolveLocals W m).roleSessionName⟩]) with
      | (v, none, exp) => ⟨v, none, [Event.webIdentity ⟨selectClient W m (contextOf W cc),
          stsEndpoint m.Endpoint (resolveLocals W m).region, (resolveLocals W m).identityFile,
          (resolveLocals W m).roleArn, (resolveLocals W m).roleSessionName⟩,
          Event.setExpiration exp DefaultExpiryWindow]⟩
      | (v, some err, _) => ⟨v, some err, [Event.webIdentity ⟨selectClient W m (contextOf W cc),
          stsEndpoint m.Endpoint (resolveLocals W m).region, (resolveLocals W m).identityFile,
          (resolveLocals W m).roleArn, (resolveLocals W m).roleSessionName⟩]⟩ := by
  unfold RetrieveWithCredContext
  rw [if_pos h]
  simp only [contextOf]
  generalize W.webIdentity _ _ _ = r
  obtain ⟨v, e, exp⟩ := r
  cases e <;> rfl

theorem Retrieve_relative (W : World) (m : IAM) (cc : Option CredContext)
    (h1 : (resolveLocals W m).identityFile = "") (h2 : (resolveLocals W m).relativeURI ≠ "") :
    RetrieveWithCredContext W m cc =
      returnRoleCreds (getEcsTaskCredentials W (selectClient W m (contextOf W cc))
        (if m.Endpoint = "" then DefaultECSRoleEndpoint ++ (resolveLocals W m).relativeURI
          else m.Endpoint) (resolveLocals W m).token []) := by
  unfold RetrieveWithCredContext
  simp only [h1, ne_eq, not_true_eq_false, if_false, h2, not_false_eq_true, if_true, contextOf,
    length_eq_zero_iff]

theorem Retrieve_pod (W : World) (m : IAM) (cc : Option CredContext)
    (h1 : (resolveLocals W m).identityFile = "") (h2 : (resolveLocals W m).relativeURI = "")
    (h3 : (resolveLocals W m).tokenFile ≠ "") (h4 : (resolveLocals W m).fullURI ≠ "") :
    RetrieveWithCredContext W m cc =
      returnRoleCreds (getEKSPodIdentityCredentials W (selectClient W m (contextOf W cc))
        (resolveLocals W m).fullURI (resolveLocals W m).tokenFile []) := by
  unfold RetrieveWithCredContext
  simp only [h1, h2, ne_eq, not_true_eq_false, if_false, h3, h4, not_false_eq_true, and_self,
    if_true, contextOf]

theorem Retrieve_full_custom (W : World) (m : IAM) (cc : Option CredContext)
    (h1 : (resolveLocals W m).identityFile = "") (h2 : (resolveLocals W m).relativeURI = "")
    (h3 : (resolveLocals W m).tokenFile = "") (h4 : (resolveLocals W m).fullURI ≠ "")
    (h5 : m.Endpoint ≠ "") :
    RetrieveWithCredContext W m cc =
      returnRoleCreds (getEcsTaskCredentials W (selectClient W m (contextOf W cc))
        m.Endpoint (resolveLocals W m).token []) := by
  unfold RetrieveWithCredContext
  simp only [h1, h2, h3, ne_eq, not_true_eq_false, if_false, h4, not_false_eq_true, false_and,
    if_true, contextOf, length_eq_zero_iff, h5]

theorem Retrieve_full_rejected (W : World) (m : IAM) (cc : Option CredContext)
    (h1 : (resolveLocals W m).identityFile = "") (h2 : (resolveLocals W m).relativeURI = "")
    (h3 : (resolveLocals W m).tokenFile = "") (h4 : (resolveLocals W m).fullURI ≠ "")
    (h5 : m.Endpoint = "") (h6 : (isLoopback W (resolveLocals W m).fullURI []).val = false) :
    RetrieveWithCredContext W m cc =
      ⟨.zero,
        some (match (isLoopback W (resolveLocals W m).fullURI []).err with
          | none => .msg ("uri host is not a loopback address: " ++ (resolveLocals W m).fullURI)
          | some err => err),
        (isLoopback W (resolveLocals W m).fullURI []).trace⟩ := by
  unfold RetrieveWithCredContext
  simp only [h1, h2, h3, ne_eq, not_true_eq_false, if_false, h4, not_false_eq_true, false_and,
    if_true, contextOf, length_eq_zero_iff, h5, h6, Bool.not_false]
  cases (isLoopback W (resolveLocals W m).fullURI []).err <;> rfl

theorem Retrieve_full_accepted (W : World) (m : IAM) (cc : Option CredContext)
    (h1 : (resolveLocals W m).identityFile = "") (h2 : (resolveLocals W m).relativeURI = "")
    (h3 : (resolveLocals W m).tokenFile = "") (h4 : (resolveLocals W m).fullURI ≠ "")
    (h5 : m.Endpoint = "") (h6 : (isLoopback W (resolveLocals W m).fullURI []).val = true) :
    RetrieveWithCredContext W m cc =
      returnRoleCreds (getEcsTaskCredentials W (selectClient W m (contextOf W cc))
        (resolveLocals W m).fullURI (resolveLocals W m).token
        (isLoopback W (resolveLocals W m).fullURI []).trace) := by
  unfold RetrieveWithCredContext
  simp only [h1, h2, h3, ne_eq, not_true_eq_false, if_false, h4, not_false_eq_true, false_and,
    if_true, contextOf, length_eq_zero_iff, h5, h6, Bool.not_true, Bool.false_eq_true]

theorem Retrieve_default (W : World) (m : IAM) (cc : Option CredContext)
    (h1 : (resolveLocals W m).identityFile = "") (h2 : (resolveLocals W m).relativeURI = "")
    (h4 : (resolveLocals W m).fullURI = "") :
    RetrieveWithCredContext W m cc =
      returnRoleCreds (getCredentials W (selectClient W m (contextOf W cc)) m.Endpoint []) := by
  unfold RetrieveWithCredContext
  simp only [h1, h2, h4, ne_eq, not_true_eq_false, if_false, and_false, contextOf]

/-! ### The shape of the traces -/

theorem fetchIMDSToken_trace (W : World) (client : Client) (endpoint : String)
    (tr : List Event) :
    ∃ hs, (fetchIMDSToken W client endpoint tr).trace = tr ++ hs ∧
      ∀ e ∈ hs, ∃ req, e = Event.httpDo client req ∧ req.Method = "PUT" := by
  unfold fetchIMDSToken
  cases hn : NewRequest W "PUT" (endpoint ++ TokenPath) with
  | error e => exact ⟨[], by simp⟩
  | ok req0 =>
    have hr := NewRequest_eq_ok hn
    subst hr
    refine ⟨[Event.httpDo client ((Request.mk "PUT" (endpoint ++ TokenPath) []).addHeader
      TokenRequestTTLHeader TokenTTL)], ?_, ?_⟩
    · simp only
      split
      · rfl
      · split
        · rfl
        · split <;> rfl
    · intro e he
      simp only [List.mem_singleton] at he
      exact ⟨_, he, rfl⟩

theorem fetchIMDSToken_val_of_err (W : World) (client : Client) (endpoint : String)
    (tr : List Event) (e : Error) (h : (fetchIMDSToken W client endpoint tr).err = some e) :
    (fetchIMDSToken W client endpoint tr).val = "" := by
  unfold fetchIMDSToken at h ⊢
  cases hn : NewRequest W "PUT" (endpoint ++ TokenPath) with
  | error e0 => rfl
  | ok req0 =>
    simp only [hn] at h ⊢
    cases hd : W.clientDo client tr (req0.addHeader TokenRequestTTLHeader TokenTTL) with
    | error e1 => rfl
    | ok resp =>
      simp only [hd] at h ⊢
      cases hb : readAll resp.Body with
      | error e2 => rfl
      | ok data =>
        simp only [hb] at h ⊢
        by_cases hs : resp.StatusCode = StatusOK
        · simp [hs] at h
        · simp [hs]

theorem listRoleNames_trace (W : World) (client : Client) (u : URL) (token : String)
    (tr : List Event) :
    ∃ hs, (listRoleNames W client u token tr).trace = tr ++ hs ∧
      ∀ e ∈ hs, ∃ req, e = Event.httpDo client req ∧ req.Method = "GET" ∧
        (token = "" → req.Header = []) := by
  unfold listRoleNames
  cases hn : NewRequest W "GET" (W.urlString u) with
  | error e => exact ⟨[], by simp⟩
  | ok req0 =>
    have hr := NewRequest_eq_ok hn
    subst hr
    refine ⟨[Event.httpDo client (if token ≠ "" then
      (Request.mk "GET" (W.urlString u) []).addHeader TokenRequestHeader token
      else Request.mk "GET" (W.urlString u) [])], ?_, ?_⟩
    · simp only
      split
      · rfl
      · split
        · rfl
        · split <;> rfl
    · intro e he
      simp only [List.mem_singleton] at he
      refine ⟨_, he, ?_, ?_⟩
      · split <;> rfl
      · intro ht
        simp [ht]

/-! ### The instance-profile fetcher -/

theorem getCredentials_hard (W : World) (client : Client) (endpoint : String) (tr : List Event)
    (e : Error)
    (he : (fetchIMDSToken W client (imdsEndpoint endpoint)
      (tr ++ [Event.getCredentials client endpoint])).err = some e)
    (hs : ¬ isTimeoutOrCancel e) :
    getCredentials W client endpoint tr = ⟨.zero, some e,
      (fetchIMDSToken W client (imdsEndpoint endpoint)
        (tr ++ [Event.getCredentials client endpoint])).trace⟩ := by
  unfold isTimeoutOrCancel at hs
  unfold getCredentials
  simp only [imdsEndpoint] at he
  simp only [he, Option.any_some]
  have h1 : errorsIs e .deadlineExceeded = false := by
    cases h : errorsIs e .deadlineExceeded
    · rfl
    · exact absurd (Or.inl h) hs
  have h2 : errorsIs e .canceled = false := by
    cases h : errorsIs e .canceled
    · rfl
    · exact absurd (Or.inr h) hs
  simp [h1, h2, imdsEndpoint]

theorem tokenRequest_eq (url token : String) :
    (if token ≠ "" then (Request.mk "GET" url []).addHeader TokenRequestHeader token
      else Request.mk "GET" url []) = tokenRequest url token := by
  unfold tokenRequest Request.addHeader
  split <;> simp

theorem any_hard_eq_false (o : Option Error) (hs : ∀ e, o = some e → isTimeoutOrCancel e) :
    Option.any (fun err => !errorsIs err .deadlineExceeded && !errorsIs err .canceled) o
      = false := by
  cases o with
  | none => rfl
  | some e =>
    have h := hs e rfl
    unfold isTimeoutOrCancel at h
    rcases h with h | h <;> simp [h]

theorem getCredentials_url_error (W : World) (client : Client) (endpoint : String)
    (tr : List Event) (e1 : Error)
    (hs : ∀ e, (imdsToken W client endpoint tr).err = some e → isTimeoutOrCancel e)
    (hu : getIAMRoleURL W (imdsEndpoint endpoint) = .error e1) :
    getCredentials W client endpoint tr =
      ⟨.zero, some e1, (imdsToken W client endpoint tr).trace⟩ := by
  have ha := any_hard_eq_false _ hs
  unfold imdsToken imdsEndpoint at ha
  unfold imdsEndpoint at hu
  unfold getCredentials imdsToken imdsEndpoint
  simp only [ha, hu, Bool.false_eq_true, if_false]

theorem getCredentials_url_ok (W : World) (client : Client) (endpoint : String)
    (tr : List Event) (u : URL)
    (hs : ∀ e, (imdsToken W client endpoint tr).err = some e → isTimeoutOrCancel e)
    (hu : getIAMRoleURL W (imdsEndpoint endpoint) = .ok u) :
    getCredentials W client endpoint tr =
      match (roleList W client endpoint tr u).err with
      | some err => ⟨.zero, some err, (roleList W client endpoint tr u).trace⟩
      | none =>
        match (roleList W client endpoint tr u).val with
        | [] => ⟨.zero, some (.msg "No IAM roles attached to this EC2 service"),
            (roleList W client endpoint tr u).trace⟩
        | roleName :: _ =>
          match NewRequest W "GET" (roleURL W u roleName) with
          | .error err => ⟨.zero, some err, (roleList W client endpoint tr u).trace⟩
          | .ok _ =>
            match W.clientDo client (roleList W client endpoint tr u).trace
                (tokenRequest (roleURL W u roleName) (imdsToken W client endpoint tr).val) with
            | .error err => ⟨.zero, some err, (roleList W client endpoint tr u).trace ++
                [Event.httpDo client (tokenRequest (roleURL W u roleName)
                  (imdsToken W client endpoint tr).val)]⟩
            | .ok resp =>
              if resp.StatusCode ≠ StatusOK then
                ⟨.zero, some (.msg resp.Status), (roleList W client endpoint tr u).trace ++
                  [Event.httpDo client (tokenRequest (roleURL W u roleName)
                    (imdsToken W client endpoint tr).val)]⟩
              else
                match W.decode resp.Body with
                | .error err => ⟨.zero, some err, (roleList W client endpoint tr u).trace ++
                    [Event.httpDo client (tokenRequest (roleURL W u roleName)
                      (imdsToken W client endpoint tr).val)]⟩
                | .ok respCreds =>
                  if respCreds.Code ≠ "Success" then
                    ⟨.zero, some (.msg respCreds.Message),
                      (roleList W client endpoint tr u).trace ++
                      [Event.httpDo client (tokenRequest (roleURL W u roleName)
                        (imdsToken W client endpoint tr).val)]⟩
                  else ⟨respCreds, none, (roleList W client endpoint tr u).trace ++
                    [Event.httpDo client (tokenRequest (roleURL W u roleName)
                      (imdsToken W client endpoint tr).val)]⟩ := by
  have ha := any_hard_eq_false _ hs
  unfold imdsToken imdsEndpoint at ha
  unfold imdsEndpoint at hu
  unfold getCredentials roleList imdsToken imdsEndpoint roleURL
  simp only [ha, hu, Bool.false_eq_true, if_false]
  split
  · rfl
  · split
    · rfl
    · split
      · rfl
      · rename_i req hreq
        have hr := NewRequest_eq_ok hreq
        subst hr
        simp only [tokenRequest_eq]

/-- C8. In `getCredentials`, once the role-credentials request has returned 200 with a
body that decodes: the decoded response is returned, with no error, exactly
when its `Code` is `Success`; for any other `Code` the zero response is
returned with an error whose text is the `Message` of the response. -/
theorem getCredentials_code (W : World) (client : Client) (endpoint : String)
    (tr : List Event) (u : URL) (roleName : String) (rest : List String) (req0 : Request)
    (resp : Response) (body : ec2RoleCredRespBody)
    (hs : ∀ e, (imdsToken W client endpoint tr).err = some e → isTimeoutOrCancel e)
    (hu : getIAMRoleURL W (imdsEndpoint endpoint) = .ok u)
    (hl : (roleList W client endpoint tr u).err = none)
    (hv : (roleList W client endpoint tr u).val = roleName :: rest)
    (hn : NewRequest W "GET" (roleURL W u roleName) = .ok req0)
    (hd : W.clientDo client (roleList W client endpoint tr u).trace
      (tokenRequest (roleURL W u roleName) (imdsToken W client endpoint tr).val) = .ok resp)
    (hst : resp.StatusCode = StatusOK)
    (hdec : W.decode resp.Body = .ok body) :
    (body.Code = "Success" →
      (getCredentials W client endpoint tr).val = body ∧
      (getCredentials W client endpoint tr).err = none) ∧
    (body.Code ≠ "Success" →
      (getCredentials W client endpoint tr).val = .zero ∧
      ∃ e, (getCredentials W client endpoint tr).err = some e ∧ e.text = body.Message) ∧
    (((getCredentials W client endpoint tr).val = body ∧
      (getCredentials W client endpoint tr).err = none) ↔ body.Code = "Success") := by
  rw [getCredentials_url_ok W client endpoint tr u hs hu]
  simp only [hl, hv, hn, hd, hst, hdec, ne_eq, not_true_eq_false, if_false]
  by_cases hc : body.Code = "Success" <;> simp [hc, Error.text]

/-- C8, at a concrete input: at `10.0.0.3` the role-credentials request returns 200
with the document of code `Failure` and message `x`, and `getCredentials`
returns the error `x`. -/
theorem getCredentials_code_witness :
    (getCredentials goWorld ⟨0⟩ "http://10.0.0.3" []).val = .zero ∧
    ∃ e, (getCredentials goWorld ⟨0⟩ "http://10.0.0.3" []).err = some e ∧ e.text = "x" :=
  (getCredentials_code goWorld ⟨0⟩ "http://10.0.0.3" []
    ⟨"http", "", "", "10.0.0.3", DefaultIAMSecurityCredsPath, "", "", ""⟩ "s3access" []
    ⟨"GET", "http://10.0.0.3/latest/meta-data/iam/security-credentials/s3access", []⟩
    ⟨200, "200 OK", ⟨"failure-document", none⟩⟩ failureCreds
    (fun e he => by
      have h0 : (imdsToken goWorld ⟨0⟩ "http://10.0.0.3" []).err = none := by decide
      rw [h0] at he
      cases he)
    (by rfl) (by decide) (by decide) (by rfl) (by rfl) (by decide) (by rfl)).2.1 (by decide)

theorem mem_httpRequests (req : Request) (l : List Event) :
    req ∈ httpRequests l ↔ ∃ c, Event.httpDo c req ∈ l := by
  induction l with
  | nil => simp [httpRequests]
  | cons x xs ih =>
    cases x <;> simp [httpRequests, ih]
    case httpDo c r =>
      constructor
      · rintro (h | ⟨c1, h⟩)
        · exact ⟨c, Or.inl ⟨rfl, h⟩⟩
        · exact ⟨c1, Or.inr h⟩
      · rintro ⟨c1, (⟨-, h⟩ | h)⟩
        · exact Or.inl h
        · exact Or.inr ⟨c1, h⟩

theorem getCredentials_continue_trace (W : World) (client : Client) (endpoint : String)
    (tr : List Event) (u : URL)
    (hs : ∀ e, (imdsToken W client endpoint tr).err = some e → isTimeoutOrCancel e)
    (hu : getIAMRoleURL W (imdsEndpoint endpoint) = .ok u) :
    ∃ hs2, (getCredentials W client endpoint tr).trace =
        (roleList W client endpoint tr u).trace ++ hs2 ∧
      ∀ ev ∈ hs2, ∃ url, ev = Event.httpDo client
        (tokenRequest url (imdsToken W client endpoint tr).val) := by
  rw [getCredentials_url_ok W client endpoint tr u hs hu]
  split
  · exact ⟨[], by simp⟩
  · split
    · exact ⟨[], by simp⟩
    · rename_i roleName rest hv
      split
      · exact ⟨[], by simp⟩
      · refine ⟨[Event.httpDo client (tokenRequest (roleURL W u roleName)
          (imdsToken W client endpoint tr).val)], ?_, ?_⟩
        · split
          · rfl
          · split
            · rfl
            · split
              · rfl
              · split <;> rfl
        · intro ev hev
          simp only [List.mem_singleton] at hev
          exact ⟨_, hev⟩

theorem fetchIMDSToken_status (W : World) (client : Client) (endpoint : String)
    (tr : List Event) (req0 : Request) (resp : Response) (data : String)
    (hn : NewRequest W "PUT" (endpoint ++ TokenPath) = .ok req0)
    (hd : W.clientDo client tr (req0.addHeader TokenRequestTTLHeader TokenTTL) = .ok resp)
    (hb : readAll resp.Body = .ok data) (hst : resp.StatusCode ≠ StatusOK) :
    (fetchIMDSToken W client endpoint tr).err = some (.msg resp.Status) := by
  unfold fetchIMDSToken
  simp [hn, hd, hb, hst]

theorem not_isTimeoutOrCancel_msg (text : String) : ¬ isTimeoutOrCancel (.msg text) := by
  unfold isTimeoutOrCancel
  simp [errorsIs]

theorem listRoleNames_request (W : World) (client : Client) (u : URL) (token : String)
    (tr : List Event) (req0 : Request) (hn : NewRequest W "GET" (W.urlString u) = .ok req0) :
    (listRoleNames W client u token tr).trace =
      tr ++ [Event.httpDo client (tokenRequest (W.urlString u) token)] := by
  have hr := NewRequest_eq_ok hn
  subst hr
  unfold listRoleNames
  simp only [hn, tokenRequest_eq]
  split
  · rfl
  · split
    · rfl
    · split <;> rfl

/-- C7. In `getCredentials`, when the token handshake fails with the error `e`.
If `e` is a deadline-exceeded or a cancellation, the token is empty and the
function goes on: the role-list step runs with the empty token, its request
and the role-credentials request are GETs without any header, and when they
succeed `getCredentials` succeeds.  If `e` is any other error, `getCredentials`
returns `e` with the zero response and its trace ends with the handshake, so
the only request it can hold is the PUT of the handshake.  A response of the
token endpoint with a status other than 200 is such an error. -/
theorem getCredentials_handshake (W : World) (client : Client) (endpoint : String)
    (tr : List Event) (e : Error) (he : (imdsToken W client endpoint tr).err = some e) :
    (isTimeoutOrCancel e →
      (imdsToken W client endpoint tr).val = "" ∧
      ∀ u, getIAMRoleURL W (imdsEndpoint endpoint) = .ok u →
        roleList W client endpoint tr u =
          listRoleNames W client u "" (imdsToken W client endpoint tr).trace ∧
        (roleList W client endpoint tr u).trace <+: (getCredentials W client endpoint tr).trace ∧
        (∀ req0, NewRequest W "GET" (W.urlString u) = .ok req0 →
          httpRequests ((roleList W client endpoint tr u).trace.drop
            (imdsToken W client endpoint tr).trace.length) = [⟨"GET", W.urlString u, []⟩]) ∧
        (∀ req ∈ httpRequests ((getCredentials W client endpoint tr).trace.drop
            (imdsToken W client endpoint tr).trace.length),
          req.Method = "GET" ∧ req.Header = []) ∧
        (∀ roleName rest req0 resp body,
          (roleList W client endpoint tr u).err = none →
          (roleList W client endpoint tr u).val = roleName :: rest →
          NewRequest W "GET" (roleURL W u roleName) = .ok req0 →
          W.clientDo client (roleList W client endpoint tr u).trace
            ⟨"GET", roleURL W u roleName, []⟩ = .ok resp →
          resp.StatusCode = StatusOK → W.decode resp.Body = .ok body →
          body.Code = "Success" →
          (getCredentials W client endpoint tr).val = body ∧
          (getCredentials W client endpoint tr).err = none ∧
          (getCredentials W client endpoint tr).trace = (roleList W client endpoint tr u).trace
            ++ [Event.httpDo client ⟨"GET", roleURL W u roleName, []⟩])) ∧
    (¬ isTimeoutOrCancel e →
      (getCredentials W client endpoint tr).val = .zero ∧
      (getCredentials W client endpoint tr).err = some e ∧
      (getCredentials W client endpoint tr).trace = (imdsToken W client endpoint tr).trace ∧
      ∀ req ∈ httpRequests ((getCredentials W client endpoint tr).trace.drop tr.length),
        req.Method = "PUT") ∧
    (∀ req0 resp data, NewRequest W "PUT" (imdsEndpoint endpoint ++ TokenPath) = .ok req0 →
      W.clientDo client (tr ++ [Event.getCredentials client endpoint])
        (req0.addHeader TokenRequestTTLHeader TokenTTL) = .ok resp →
      readAll resp.Body = .ok data → resp.StatusCode ≠ StatusOK →
      e = .msg resp.Status ∧ ¬ isTimeoutOrCancel e) := by
  refine ⟨?_, ?_, ?_⟩
  · intro hsoft
    have hval : (imdsToken W client endpoint tr).val = "" :=
      fetchIMDSToken_val_of_err W client _ _ e he
    have hs : ∀ e1, (imdsToken W client endpoint tr).err = some e1 → isTimeoutOrCancel e1 := by
      intro e1 h1
      rw [he] at h1
      cases h1
      exact hsoft
    refine ⟨hval, ?_⟩
    intro u hu
    have hrl : roleList W client endpoint tr u =
        listRoleNames W client u "" (imdsToken W client endpoint tr).trace := by
      unfold roleList
      rw [hval]
    obtain ⟨hs2, ht2, hp2⟩ := getCredentials_continue_trace W client endpoint tr u hs hu
    obtain ⟨hs1, ht1, hp1⟩ :=
      listRoleNames_trace W client u "" (imdsToken W client endpoint tr).trace
    refine ⟨hrl, ?_, ?_, ?_, ?_⟩
    · rw [ht2]
      exact List.prefix_append _ _
    · intro req0 hn
      rw [hrl, listRoleNames_request W client u "" _ req0 hn]
      simp [httpRequests, tokenRequest]
    · intro req hreq
      rw [ht2, hrl, ht1, List.append_assoc, drop_length_append] at hreq
      rw [mem_httpRequests] at hreq
      obtain ⟨c, hc⟩ := hreq
      rcases List.mem_append.mp hc with h1 | h2
      · obtain ⟨r, hr, hm, hh⟩ := hp1 _ h1
        cases hr
        exact ⟨hm, hh rfl⟩
      · obtain ⟨url, hr⟩ := hp2 _ h2
        cases hr
        rw [hval]
        exact ⟨rfl, rfl⟩
    · intro roleName rest req0 resp body hl hv hn hd hst hdec hc
      have htr : tokenRequest (roleURL W u roleName) (imdsToken W client endpoint tr).val =
          ⟨"GET", roleURL W u roleName, []⟩ := by
        rw [hval]
        rfl
      rw [getCredentials_url_ok W client endpoint tr u hs hu]
      simp only [hl, hv, hn, htr, hd, hst, hdec, hc, ne_eq, not_true_eq_false, if_false,
        and_self]
  · intro hhard
    rw [getCredentials_hard W client endpoint tr e he hhard]
    refine ⟨rfl, rfl, rfl, ?_⟩
    intro req hreq
    obtain ⟨hs1, ht1, hp1⟩ := fetchIMDSToken_trace W client (imdsEndpoint endpoint)
      (tr ++ [Event.getCredentials client endpoint])
    simp only [ht1, List.append_assoc, drop_length_append] at hreq
    rw [mem_httpRequests] at hreq
    obtain ⟨c, hc⟩ := hreq
    rcases List.mem_append.mp hc with h1 | h2
    · simp at h1
    · obtain ⟨r, hr, hm⟩ := hp1 _ h2
      cases hr
      exact hm
  · intro req0 resp data hn hd hb hst
    have h := fetchIMDSToken_status W client (imdsEndpoint endpoint) _ req0 resp data hn hd hb hst
    unfold imdsToken at he
    rw [h] at he
    cases he
    exact ⟨rfl, not_isTimeoutOrCancel_msg _⟩

/-- C7, at two concrete inputs.  At `10.0.0.1` the token endpoint times out and
`getCredentials` still returns the credentials of the role; at `10.0.0.2` the
token endpoint answers 500 and `getCredentials` returns that error. -/
theorem getCredentials_handshake_witness :
    ((getCredentials goWorld ⟨0⟩ "http://10.0.0.1" []).val = successCreds ∧
      (getCredentials goWorld ⟨0⟩ "http://10.0.0.1" []).err = none) ∧
    (getCredentials goWorld ⟨0⟩ "http://10.0.0.2" []).err =
      some (.msg "500 Internal Server Error") := by
  have h := (((getCredentials_handshake goWorld ⟨0⟩ "http://10.0.0.1" []
      (.wrap "Put" .deadlineExceeded) (by decide)).1 (Or.inl (by decide))).2
      ⟨"http", "", "", "10.0.0.1", DefaultIAMSecurityCredsPath, "", "", ""⟩ (by rfl)).2.2.2.2
      "s3access" []
      ⟨"GET", "http://10.0.0.1/latest/meta-data/iam/security-credentials/s3access", []⟩
      ⟨200, "200 OK", ⟨"success-document", none⟩⟩ successCreds
      (by decide) (by decide) (by rfl) (by rfl) (by decide) (by rfl) (by decide)
  exact ⟨⟨h.1, h.2.1⟩,
    ((getCredentials_handshake goWorld ⟨0⟩ "http://10.0.0.2" []
      (.msg "500 Internal Server Error") (by decide)).2.1
      (not_isTimeoutOrCancel_msg _)).2.1⟩

/-! ### What the traces of the fetchers contain -/

theorem invoked_append (a b : List Event) : invoked (a ++ b) = invoked a ++ invoked b := by
  induction a with
  | nil => rfl
  | cons x xs ih => cases x <;> simp [invoked, ih]

theorem fileReads_append (a b : List Event) :
    fileReads (a ++ b) = fileReads a ++ fileReads b := by
  induction a with
  | nil => rfl
  | cons x xs ih => cases x <;> simp [fileReads, ih]

theorem hostLookups_append (a b : List Event) :
    hostLookups (a ++ b) = hostLookups a ++ hostLookups b := by
  induction a with
  | nil => rfl
  | cons x xs ih => cases x <;> simp [hostLookups, ih]

theorem setExpirations_append (a b : List Event) :
    setExpirations (a ++ b) = setExpirations a ++ setExpirations b := by
  induction a with
  | nil => rfl
  | cons x xs ih => cases x <;> simp [setExpirations, ih]

theorem observers_of_http (hs : List Event) (h : ∀ e ∈ hs, ∃ c req, e = Event.httpDo c req) :
    invoked hs = [] ∧ fileReads hs = [] ∧ hostLookups hs = [] ∧ setExpirations hs = [] := by
  induction hs with
  | nil => exact ⟨rfl, rfl, rfl, rfl⟩
  | cons x xs ih =>
    obtain ⟨c, req, hx⟩ := h x (List.mem_cons_self _ _)
    subst hx
    have := ih (fun e he => h e (List.mem_cons_of_mem _ he))
    simpa [invoked, fileReads, hostLookups, setExpirations] using this

theorem getEcsTaskCredentials_trace (W : World) (client : Client) (endpoint token : String)
    (tr : List Event) :
    ∃ hs, (getEcsTaskCredentials W client endpoint token tr).trace =
        tr ++ Event.getEcsTaskCredentials client endpoint token :: hs ∧
      ∀ e ∈ hs, e = Event.httpDo client (ecsRequest endpoint token) := by
  cases hn : NewRequest W "GET" endpoint with
  | error e =>
    rw [getEcsTaskCredentials_of_error W client endpoint token tr e hn]
    exact ⟨[], rfl, by simp⟩
  | ok req0 =>
    rw [getEcsTaskCredentials_of_ok W client endpoint token tr req0 hn]
    refine ⟨[Event.httpDo client (ecsRequest endpoint token)], ?_, by simp⟩
    split
    · rfl
    · split
      · rfl
      · split <;> rfl

theorem getEKSPodIdentityCredentials_trace (W : World) (client : Client)
    (endpoint tokenFile : String) (tr : List Event) :
    ∃ rs cs hs, (getEKSPodIdentityCredentials W client endpoint tokenFile tr).trace =
        tr ++ Event.getEKSPodIdentityCredentials client endpoint tokenFile :: (rs ++ cs ++ hs) ∧
      (∀ e ∈ rs, e = Event.readFile tokenFile) ∧
      (∀ e ∈ cs, ∃ token, e = Event.getEcsTaskCredentials client endpoint token) ∧
      (∀ e ∈ hs, ∃ req, e = Event.httpDo client req) := by
  unfold getEKSPodIdentityCredentials
  by_cases ht : tokenFile = ""
  · exact ⟨[], [], [], by simp [ht], by simp, by simp, by simp⟩
  · simp only [ne_eq, ht, not_false_eq_true, if_true]
    cases hr : W.readFile tokenFile with
    | error e =>
      exact ⟨[Event.readFile tokenFile], [], [], by simp, by simp, by simp, by simp⟩
    | ok bytes =>
      obtain ⟨hs, hts, hps⟩ := getEcsTaskCredentials_trace W client endpoint bytes
        (tr ++ [Event.getEKSPodIdentityCredentials client endpoint tokenFile] ++
          [Event.readFile tokenFile])
      refine ⟨[Event.readFile tokenFile], [Event.getEcsTaskCredentials client endpoint bytes],
        hs, ?_, by simp, by simp, ?_⟩
      · simp only [hts]
        simp
      · intro e he
        exact ⟨_, hps e he⟩

theorem getCredentials_trace (W : World) (client : Client) (endpoint : String)
    (tr : List Event) :
    ∃ hs, (getCredentials W client endpoint tr).trace =
        tr ++ Event.getCredentials client endpoint :: hs ∧
      ∀ e ∈ hs, ∃ req, e = Event.httpDo client req := by
  obtain ⟨hs0, ht0, hp0⟩ := fetchIMDSToken_trace W client (imdsEndpoint endpoint)
    (tr ++ [Event.getCredentials client endpoint])
  have hp0a : ∀ e ∈ hs0, ∃ req, e = Event.httpDo client req := by
    intro e he
    obtain ⟨req, hr, -⟩ := hp0 e he
    exact ⟨req, hr⟩
  by_cases hsoft : ∀ e, (imdsToken W client endpoint tr).err = some e → isTimeoutOrCancel e
  · cases hu : getIAMRoleURL W (imdsEndpoint endpoint) with
    | error e1 =>
      rw [getCredentials_url_error W client endpoint tr e1 hsoft hu]
      refine ⟨hs0, ?_, hp0a⟩
      show (imdsToken W client endpoint tr).trace = _
      unfold imdsToken
      rw [ht0]
      simp
    | ok u =>
      obtain ⟨hs2, ht2, hp2⟩ := getCredentials_continue_trace W client endpoint tr u hsoft hu
      obtain ⟨hs1, ht1, hp1⟩ := listRoleNames_trace W client u
        (imdsToken W client endpoint tr).val (imdsToken W client endpoint tr).trace
      refine ⟨hs0 ++ hs1 ++ hs2, ?_, ?_⟩
      · rw [ht2]
        unfold roleList
        rw [ht1]
        unfold imdsToken
        rw [ht0]
        simp
      · intro e he
        rcases List.mem_append.mp he with h01 | h2
        · rcases List.mem_append.mp h01 with h0 | h1
          · exact hp0a e h0
          · obtain ⟨req, hr, -⟩ := hp1 e h1
            exact ⟨req, hr⟩
        · obtain ⟨url, hr⟩ := hp2 e h2
          exact ⟨_, hr⟩
  · push_neg at hsoft
    obtain ⟨e, he, hhard⟩ := hsoft
    rw [getCredentials_hard W client endpoint tr e he hhard]
    refine ⟨hs0, ?_, hp0a⟩
    show (fetchIMDSToken W client (imdsEndpoint endpoint) _).trace = _
    rw [ht0]
    simp

theorem isLoopback_trace (W : World) (uri : String) (tr : List Event) :
    ∃ ls, (isLoopback W uri tr).trace = tr ++ Event.isLoopback uri :: ls ∧
      ∀ e ∈ ls, ∃ host, e = Event.lookupHost host := by
  unfold isLoopback
  cases hp : W.urlParse uri with
  | error e => exact ⟨[], by simp, by simp⟩
  | ok u =>
    by_cases hh : (W.urlHostname u).length = 0
    · exact ⟨[], by simp [hh], by simp⟩
    · refine ⟨[Event.lookupHost (W.urlHostname u)], ?_, by simp⟩
      simp only [hh, if_false]
      cases hl : W.lookupHost (W.urlHostname u) <;> simp

theorem isLoopback_val_of_err (W : World) (uri : String) (tr : List Event)
    (h : (isLoopback W uri tr).err ≠ none) : (isLoopback W uri tr).val = false := by
  unfold isLoopback at h ⊢
  cases hp : W.urlParse uri with
  | error e => rfl
  | ok u =>
    by_cases hh : (W.urlHostname u).length = 0
    · simp [hh]
    · simp only [hp, hh, if_false] at h ⊢
      cases hl : W.lookupHost (W.urlHostname u) with
      | error e => rfl
      | ok ips => simp [hl] at h

theorem returnRoleCreds_observers (f : Ret ec2RoleCredRespBody) :
    invoked (returnRoleCreds f).trace = invoked f.trace ∧
    fileReads (returnRoleCreds f).trace = fileReads f.trace ∧
    hostLookups (returnRoleCreds f).trace = hostLookups f.trace ∧
    httpRequests (returnRoleCreds f).trace = httpRequests f.trace := by
  unfold returnRoleCreds
  cases f.err <;>
    simp [invoked_append, fileReads_append, hostLookups_append, httpRequests_append, invoked,
      fileReads, hostLookups, httpRequests]

theorem returnRoleCreds_of_err (f : Ret ec2RoleCredRespBody) (e : Error)
    (h : f.err = some e) : returnRoleCreds f = ⟨.zero, some e, f.trace⟩ := by
  unfold returnRoleCreds
  simp [h]

theorem returnRoleCreds_of_ok (f : Ret ec2RoleCredRespBody) (h : f.err = none) :
    returnRoleCreds f =
      ⟨⟨f.val.AccessKeyID, f.val.SecretAccessKey, f.val.Token, f.val.Expiration, .SignatureV4⟩,
        none, f.trace ++ [Event.setExpiration f.val.Expiration DefaultExpiryWindow]⟩ := by
  unfold returnRoleCreds
  simp [h]

theorem returnRoleCreds_err (f : Ret ec2RoleCredRespBody) :
    (returnRoleCreds f).err = f.err := by
  unfold returnRoleCreds
  cases h : f.err <;> simp

theorem getEcsTaskCredentials_observers (W : World) (client : Client) (endpoint token : String)
    (tr : List Event) :
    invoked (getEcsTaskCredentials W client endpoint token tr).trace =
      invoked tr ++ [Event.getEcsTaskCredentials client endpoint token] ∧
    fileReads (getEcsTaskCredentials W client endpoint token tr).trace = fileReads tr ∧
    hostLookups (getEcsTaskCredentials W client endpoint token tr).trace = hostLookups tr ∧
    setExpirations (getEcsTaskCredentials W client endpoint token tr).trace
      = setExpirations tr ∧
    (httpRequests tr = [] → ∀ req ∈ httpRequests
      (getEcsTaskCredentials W client endpoint token tr).trace, req = ecsRequest endpoint token)
    := by
  obtain ⟨hs, ht, hp⟩ := getEcsTaskCredentials_trace W client endpoint token tr
  obtain ⟨h1, h2, h3, h4⟩ := observers_of_http hs (fun e he => ⟨_, _, hp e he⟩)
  rw [ht]
  refine ⟨?_, ?_, ?_, ?_, ?_⟩
  · simp [invoked_append, invoked, h1]
  · simp [fileReads_append, fileReads, h2]
  · simp [hostLookups_append, hostLookups, h3]
  · simp [setExpirations_append, setExpirations, h4]
  · intro h0 req hreq
    rw [mem_httpRequests] at hreq
    obtain ⟨c, hc⟩ := hreq
    rcases List.mem_append.mp hc with hc1 | hc2
    · have : req ∈ httpRequests tr := (mem_httpRequests req tr).mpr ⟨c, hc1⟩
      rw [h0] at this
      cases this
    · rcases List.mem_cons.mp hc2 with hc3 | hc4
      · cases hc3
      · have := hp _ hc4
        cases this
        rfl

theorem getCredentials_observers (W : World) (client : Client) (endpoint : String)
    (tr : List Event) :
    invoked (getCredentials W client endpoint tr).trace =
      invoked tr ++ [Event.getCredentials client endpoint] ∧
    fileReads (getCredentials W client endpoint tr).trace = fileReads tr ∧
    hostLookups (getCredentials W client endpoint tr).trace = hostLookups tr ∧
    setExpirations (getCredentials W client endpoint tr).trace = setExpirations tr := by
  obtain ⟨hs, ht, hp⟩ := getCredentials_trace W client endpoint tr
  obtain ⟨h1, h2, h3, h4⟩ := observers_of_http hs
    (fun e he => ⟨client, (hp e he).choose, (hp e he).choose_spec⟩)
  rw [ht]
  refine ⟨?_, ?_, ?_, ?_⟩
  · simp [invoked_append, invoked, h1]
  · simp [fileReads_append, fileReads, h2]
  · simp [hostLookups_append, hostLookups, h3]
  · simp [setExpirations_append, setExpirations, h4]

theorem isLoopback_observers (W : World) (uri : String) (tr : List Event) :
    httpRequests (isLoopback W uri tr).trace = httpRequests tr ∧
    setExpirations (isLoopback W uri tr).trace = setExpirations tr := by
  obtain ⟨ls, ht, hp⟩ := isLoopback_trace W uri tr
  have h : httpRequests ls = [] ∧ setExpirations ls = [] := by
    clear ht
    induction ls with
    | nil => exact ⟨rfl, rfl⟩
    | cons x xs ih =>
      obtain ⟨host, hx⟩ := hp x (List.mem_cons_self _ _)
      subst hx
      have := ih (fun e he => hp e (List.mem_cons_of_mem _ he))
      simpa [httpRequests, setExpirations] using this
  rw [ht]
  simp [httpRequests_append, setExpirations_append, httpRequests, setExpirations, h.1, h.2]

theorem getEKSPodIdentityCredentials_setExpirations (W : World) (client : Client)
    (endpoint tokenFile : String) (tr : List Event) :
    setExpirations (getEKSPodIdentityCredentials W client endpoint tokenFile tr).trace
      = setExpirations tr := by
  unfold getEKSPodIdentityCredentials
  by_cases ht : tokenFile = ""
  · simp [ht, setExpirations_append, setExpirations]
  · simp only [ne_eq, ht, not_false_eq_true, if_true]
    cases hr : W.readFile tokenFile with
    | error e => simp [setExpirations_append, setExpirations]
    | ok bytes =>
      simp only
      rw [(getEcsTaskCredentials_observers W client endpoint bytes _).2.2.2.1]
      simp [setExpirations_append, setExpirations]

/-! ### The web-identity branch -/

theorem stsEndpoint_cases (e r : String) :
    (e ≠ "" → stsEndpoint e r = e) ∧
    (e = "" → r = "" → stsEndpoint e r = "https://sts.amazonaws.com") ∧
    (e = "" → r ≠ "" → "cn-".data <+: r.data →
      stsEndpoint e r = "https://sts." ++ r ++ ".amazonaws.com.cn") ∧
    (e = "" → r ≠ "" → ¬ "cn-".data <+: r.data →
      stsEndpoint e r = "https://sts." ++ r ++ ".amazonaws.com") := by
  unfold stsEndpoint stringsHasPrefix
  simp only [length_eq_zero_iff, List.isPrefixOf_iff_prefix]
  refine ⟨?_, ?_, ?_, ?_⟩
  · intro h
    simp [h]
  · intro he hr
    simp [he, hr, DefaultSTSRoleEndpoint]
  · intro he hr hp
    simp [he, hr, hp]
  · intro he hr hp
    simp [he, hr, hp]

/-- C10. In the web-identity branch the exchange is entered once, and the STS endpoint
handed to it is the struct field `Endpoint` when that is non-empty; otherwise
`https://sts.amazonaws.com` when the effective region is empty; otherwise
`https://sts.<region>.amazonaws.com.cn` when the region starts with `cn-`, and
`https://sts.<region>.amazonaws.com` when it does not. -/
theorem RetrieveWithCredContext_stsEndpoint (W : World) (m : IAM) (cc : Option CredContext)
    (hid : effIdentityFile W m ≠ "") :
    ∃ creds rest, (RetrieveWithCredContext W m cc).trace = Event.webIdentity creds :: rest ∧
      invoked (RetrieveWithCredContext W m cc).trace = [Event.webIdentity creds] ∧
      (m.Endpoint ≠ "" → creds.STSEndpoint = m.Endpoint) ∧
      (m.Endpoint = "" → effRegion W m = "" →
        creds.STSEndpoint = "https://sts.amazonaws.com" ∧
        DefaultSTSRoleEndpoint = "https://sts.amazonaws.com") ∧
      (m.Endpoint = "" → effRegion W m ≠ "" → "cn-".data <+: (effRegion W m).data →
        creds.STSEndpoint = "https://sts." ++ effRegion W m ++ ".amazonaws.com.cn") ∧
      (m.Endpoint = "" → effRegion W m ≠ "" → ¬ "cn-".data <+: (effRegion W m).data →
        creds.STSEndpoint = "https://sts." ++ effRegion W m ++ ".amazonaws.com") := by
  have hid1 : (resolveLocals W m).identityFile ≠ "" := by
    rw [resolveLocals_identityFile]
    exact hid
  have hreg : (resolveLocals W m).region = effRegion W m := resolveLocals_region W m
  obtain ⟨c1, c2, c3, c4⟩ := stsEndpoint_cases m.Endpoint (effRegion W m)
  rw [Retrieve_webIdentity W m cc hid1, hreg]
  refine ⟨⟨selectClient W m (contextOf W cc), stsEndpoint m.Endpoint (effRegion W m),
    (resolveLocals W m).identityFile, (resolveLocals W m).roleArn,
    (resolveLocals W m).roleSessionName⟩, ?_⟩
  generalize W.webIdentity _ _ _ = r
  obtain ⟨v, e, exp⟩ := r
  cases e with
  | none =>
    exact ⟨[Event.setExpiration exp DefaultExpiryWindow], rfl, rfl, c1,
      fun h1 h2 => ⟨c2 h1 h2, rfl⟩, c3, c4⟩
  | some err =>
    exact ⟨[], rfl, rfl, c1, fun h1 h2 => ⟨c2 h1 h2, rfl⟩, c3, c4⟩

/-- C10, at a concrete input: with no endpoint and the region `cn-north-1` the
exchange gets `https://sts.cn-north-1.amazonaws.com.cn`. -/
theorem RetrieveWithCredContext_stsEndpoint_witness :
    effIdentityFile goWorld webIdentityIAM ≠ "" ∧
    ∃ creds rest,
      (RetrieveWithCredContext goWorld webIdentityIAM none).trace
        = Event.webIdentity creds :: rest ∧
      creds.STSEndpoint = "https://sts.cn-north-1.amazonaws.com.cn" := by
  obtain ⟨creds, rest, h1, -, -, -, h3, -⟩ :=
    RetrieveWithCredContext_stsEndpoint goWorld webIdentityIAM none (by decide)
  exact ⟨by decide, creds, rest, h1, h3 (by decide) (by decide) (by decide)⟩

/-! ### The branches that return a raw response -/

theorem Retrieve_raw_cases (W : World) (m : IAM) (cc : Option CredContext)
    (h1 : (resolveLocals W m).identityFile = "") :
    (∃ f, IsRawFetch W f ∧ RetrieveWithCredContext W m cc = returnRoleCreds f) ∨
    (∃ uri, (isLoopback W uri []).val = false ∧
      RetrieveWithCredContext W m cc =
        ⟨.zero,
          some (match (isLoopback W uri []).err with
            | none => .msg ("uri host is not a loopback address: " ++ uri)
            | some err => err),
          (isLoopback W uri []).trace⟩) := by
  by_cases h2 : (resolveLocals W m).relativeURI = ""
  · by_cases h4 : (resolveLocals W m).fullURI = ""
    · exact Or.inl ⟨_, Or.inr (Or.inr (Or.inr ⟨_, _, rfl⟩)), Retrieve_default W m cc h1 h2 h4⟩
    · by_cases h3 : (resolveLocals W m).tokenFile = ""
      · by_cases h5 : m.Endpoint = ""
        · cases h6 : (isLoopback W (resolveLocals W m).fullURI []).val with
          | false =>
            exact Or.inr ⟨_, h6, Retrieve_full_rejected W m cc h1 h2 h3 h4 h5 h6⟩
          | true =>
            exact Or.inl ⟨_, Or.inr (Or.inr (Or.inl ⟨_, _, _, h6, rfl⟩)),
              Retrieve_full_accepted W m cc h1 h2 h3 h4 h5 h6⟩
        · exact Or.inl ⟨_, Or.inl ⟨_, _, _, rfl⟩, Retrieve_full_custom W m cc h1 h2 h3 h4 h5⟩
      · exact Or.inl ⟨_, Or.inr (Or.inl ⟨_, _, _, rfl⟩), Retrieve_pod W m cc h1 h2 h3 h4⟩
  · exact Or.inl ⟨_, Or.inl ⟨_, _, _, rfl⟩, Retrieve_relative W m cc h1 h2⟩

theorem IsRawFetch_setExpirations (W : World) (f : Ret ec2RoleCredRespBody)
    (h : IsRawFetch W f) : setExpirations f.trace = [] := by
  rcases h with ⟨c, e, t, rfl⟩ | ⟨c, e, t, rfl⟩ | ⟨c, u, t, -, rfl⟩ | ⟨c, e, rfl⟩
  · rw [(getEcsTaskCredentials_observers W c e t []).2.2.2.1]
    rfl
  · rw [getEKSPodIdentityCredentials_setExpirations]
    rfl
  · rw [(getEcsTaskCredentials_observers W c u t _).2.2.2.1, (isLoopback_observers W u []).2]
    rfl
  · rw [(getCredentials_observers W c e []).2.2.2]
    rfl

/-- C5. Whenever `RetrieveWithCredContext` succeeds outside the web-identity branch,
its result comes from one raw response `f.val` of a raw-response source: the
returned `Value` has the access key, the secret key and the expiration of the
response, its `Token` as session token and the signer `SignatureV4`; and the
trace is the trace of that source followed by one `SetExpiration`, the only
one of the trace, with the expiration of the response and the window
`DefaultExpiryWindow`, which is `-1`. -/
theorem RetrieveWithCredContext_success (W : World) (m : IAM) (cc : Option CredContext)
    (hid : effIdentityFile W m = "") (herr : (RetrieveWithCredContext W m cc).err = none) :
    ∃ f, IsRawFetch W f ∧ f.err = none ∧
      (RetrieveWithCredContext W m cc).val.AccessKeyID = f.val.AccessKeyID ∧
      (RetrieveWithCredContext W m cc).val.SecretAccessKey = f.val.SecretAccessKey ∧
      (RetrieveWithCredContext W m cc).val.Expiration = f.val.Expiration ∧
      (RetrieveWithCredContext W m cc).val.SessionToken = f.val.Token ∧
      (RetrieveWithCredContext W m cc).val.SignerType = .SignatureV4 ∧
      (RetrieveWithCredContext W m cc).trace =
        f.trace ++ [Event.setExpiration f.val.Expiration DefaultExpiryWindow] ∧
      setExpirations (RetrieveWithCredContext W m cc).trace = [(f.val.Expiration, -1)] := by
  have h1 : (resolveLocals W m).identityFile = "" := by
    rw [resolveLocals_identityFile]
    exact hid
  rcases Retrieve_raw_cases W m cc h1 with ⟨f, hf, hr⟩ | ⟨uri, -, hr⟩
  · have hfe : f.err = none := by
      rw [hr, returnRoleCreds_err] at herr
      exact herr
    rw [hr, returnRoleCreds_of_ok f hfe]
    refine ⟨f, hf, hfe, rfl, rfl, rfl, rfl, rfl, rfl, ?_⟩
    simp [setExpirations_append, IsRawFetch_setExpirations W f hf, setExpirations,
      DefaultExpiryWindow]
  · rw [hr] at herr
    cases herr

/-- C6. Whenever `RetrieveWithCredContext` returns an error `e`, `SetExpiration` was not
called.  In the web-identity branch `e` and the returned value are those of
the exchange, and the trace holds the exchange alone.  In the other branches
the returned `Value` is the zero `Value`, and either `e` is the error of one
raw-response source, whose trace is the whole trace of the call, or the
loopback validator returned `false`, the trace is the trace of the validator,
and `e` is the error of the validator or, when it gave none, the error that
names the URI. -/
theorem RetrieveWithCredContext_failure (W : World) (m : IAM) (cc : Option CredContext)
    (e : Error) (herr : (RetrieveWithCredContext W m cc).err = some e) :
    setExpirations (RetrieveWithCredContext W m cc).trace = [] ∧
    (effIdentityFile W m ≠ "" →
      ∃ creds, (W.webIdentity creds (contextOf W cc) [Event.webIdentity creds]).2.1 = some e ∧
        (RetrieveWithCredContext W m cc).val =
          (W.webIdentity creds (contextOf W cc) [Event.webIdentity creds]).1 ∧
        (RetrieveWithCredContext W m cc).trace = [Event.webIdentity creds]) ∧
    (effIdentityFile W m = "" →
      (RetrieveWithCredContext W m cc).val = Value.zero ∧
      ((∃ f, IsRawFetch W f ∧ f.err = some e ∧
          (RetrieveWithCredContext W m cc).trace = f.trace) ∨
        (∃ uri, (isLoopback W uri []).val = false ∧
          (RetrieveWithCredContext W m cc).trace = (isLoopback W uri []).trace ∧
          ((isLoopback W uri []).err = some e ∨
            ((isLoopback W uri []).err = none ∧
              e = .msg ("uri host is not a loopback address: " ++ uri)))))) := by
  by_cases hid : effIdentityFile W m = ""
  · have h1 : (resolveLocals W m).identityFile = "" := by
      rw [resolveLocals_identityFile]
      exact hid
    rcases Retrieve_raw_cases W m cc h1 with ⟨f, hf, hr⟩ | ⟨uri, hv, hr⟩
    · have hfe : f.err = some e := by
        rw [hr, returnRoleCreds_err] at herr
        exact herr
      rw [hr, returnRoleCreds_of_err f e hfe]
      exact ⟨IsRawFetch_setExpirations W f hf, fun h => absurd hid h,
        fun _ => ⟨rfl, Or.inl ⟨f, hf, hfe, rfl⟩⟩⟩
    · rw [hr] at herr ⊢
      refine ⟨?_, fun h => absurd hid h, fun _ => ⟨rfl, Or.inr ⟨uri, hv, rfl, ?_⟩⟩⟩
      · rw [(isLoopback_observers W uri []).2]
        rfl
      · cases hle : (isLoopback W uri []).err with
        | none =>
          simp only [hle, Option.some.injEq] at herr
          exact Or.inr ⟨rfl, herr.symm⟩
        | some err =>
          simp only [hle, Option.some.injEq] at herr
          exact Or.inl (by rw [herr])
  · have h1 : (resolveLocals W m).identityFile ≠ "" := by
      rw [resolveLocals_identityFile]
      exact hid
    rw [Retrieve_webIdentity W m cc h1] at herr ⊢
    refine ⟨?_, fun _ => ⟨⟨selectClient W m (contextOf W cc),
      stsEndpoint m.Endpoint (resolveLocals W m).region, (resolveLocals W m).identityFile,
      (resolveLocals W m).roleArn, (resolveLocals W m).roleSessionName⟩, ?_⟩,
      fun h => absurd h hid⟩
    · revert herr
      generalize W.webIdentity _ _ _ = r
      obtain ⟨v, e1, exp⟩ := r
      cases e1 with
      | none => intro herr; cases herr
      | some err => intro _; rfl
    · revert herr
      generalize W.webIdentity _ _ _ = r
      obtain ⟨v, e1, exp⟩ := r
      cases e1 with
      | none => intro herr; cases herr
      | some err =>
        intro herr
        simp only [Option.some.injEq] at herr
        subst herr
        exact ⟨rfl, rfl, rfl⟩

/-- C5, at a concrete input: a full URI on the loopback address, accepted by the
validator and answered by the transport. -/
theorem RetrieveWithCredContext_success_witness :
    effIdentityFile goWorld loopbackIAM = "" ∧
    (RetrieveWithCredContext goWorld loopbackIAM none).err = none ∧
    ∃ f, IsRawFetch goWorld f ∧ f.err = none ∧
      (RetrieveWithCredContext goWorld loopbackIAM none).val.SessionToken = f.val.Token ∧
      setExpirations (RetrieveWithCredContext goWorld loopbackIAM none).trace
        = [(f.val.Expiration, -1)] := by
  obtain ⟨f, h1, h2, -, -, -, h3, -, -, h4⟩ :=
    RetrieveWithCredContext_success goWorld loopbackIAM none (by decide) (by decide)
  exact ⟨by decide, by decide, f, h1, h2, h3, h4⟩

/-- C6, at two concrete inputs: a full URI off the host, rejected by the validator,
and a web-identity configuration without a role, refused by the exchange. -/
theorem RetrieveWithCredContext_failure_witness :
    ((RetrieveWithCredContext goWorld offHostIAM none).err =
        some (.msg "uri host is not a loopback address: http://93.184.216.34/creds") ∧
      setExpirations (RetrieveWithCredContext goWorld offHostIAM none).trace = [] ∧
      (RetrieveWithCredContext goWorld offHostIAM none).val = Value.zero) ∧
    ((RetrieveWithCredContext goWorld noRoleIAM none).err = some (.msg "missing role") ∧
      setExpirations (RetrieveWithCredContext goWorld noRoleIAM none).trace = []) := by
  have h := RetrieveWithCredContext_failure goWorld offHostIAM none
    (.msg "uri host is not a loopback address: http://93.184.216.34/creds") (by decide)
  have h2 := RetrieveWithCredContext_failure goWorld noRoleIAM none
    (.msg "missing role") (by decide)
  exact ⟨⟨by decide, h.1, (h.2.2 (by decide)).1⟩, by decide, h2.1⟩

/-! ### The loopback gate -/

/-- C2 (as stated, refuted). With the custom endpoint `http://custom.example/creds` and
the off-host full URI `http://93.184.216.34/creds`, which the validator
rejects, the call does not validate anything: it sends a GET to the custom
endpoint and succeeds. -/
theorem loopbackGate_fails_with_custom_endpoint :
    ¬ LoopbackGate goWorld customEndpointIAM none := by
  intro h
  have h1 := h (by decide) (by decide) (by decide) (by decide) (by decide)
    (Or.inl (by decide))
  exact h1.1 (by decide)

/-- C2 (amended). With no web-identity token file, no relative URI, no pod-identity
token file, a full URI, and moreover an empty `Endpoint` and an empty
`Container.AuthorizationToken` field: when the loopback validator returns
`false` or an error on the full URI, `RetrieveWithCredContext` fails with an
error and performs no HTTP request, whatever the authorization token of the
environment is. -/
theorem RetrieveWithCredContext_loopback_gate (W : World) (m : IAM) (cc : Option CredContext)
    (hid : effIdentityFile W m = "") (hrel : effRelativeURI W m = "")
    (henv : W.getenv "AWS_CONTAINER_AUTHORIZATION_TOKEN_FILE" = "")
    (_hfile : m.Container.AuthorizationTokenFile = "")
    (hfull : effFullURI W m ≠ "")
    (hend : m.Endpoint = "") (htok : m.Container.AuthorizationToken = "")
    (hv : (isLoopback W (effFullURI W m) []).val = false ∨
      (isLoopback W (effFullURI W m) []).err ≠ none) :
    (RetrieveWithCredContext W m cc).err ≠ none ∧
    httpRequests (RetrieveWithCredContext W m cc).trace = [] := by
  have h1 : (resolveLocals W m).identityFile = "" := by
    rw [resolveLocals_identityFile]
    exact hid
  have h2 : (resolveLocals W m).relativeURI = "" := by
    rw [resolveLocals_relativeURI]
    exact hrel
  have h3 : (resolveLocals W m).tokenFile = "" := by
    rw [resolveLocals_tokenFile, henv, htok]
    rfl
  have h4e : (resolveLocals W m).fullURI = effFullURI W m := resolveLocals_fullURI W m
  have h4 : (resolveLocals W m).fullURI ≠ "" := by
    rw [h4e]
    exact hfull
  have h6 : (isLoopback W (resolveLocals W m).fullURI []).val = false := by
    rw [h4e]
    rcases hv with hv | hv
    · exact hv
    · exact isLoopback_val_of_err W _ _ hv
  rw [Retrieve_full_rejected W m cc h1 h2 h3 h4 hend h6]
  refine ⟨by simp, ?_⟩
  show httpRequests (isLoopback W (resolveLocals W m).fullURI []).trace = []
  rw [(isLoopback_observers W _ []).1]
  rfl

/-- C2 (amended), at a concrete input: the off-host full URI alone. -/
theorem RetrieveWithCredContext_loopback_gate_witness :
    (isLoopback goWorld (effFullURI goWorld offHostIAM) []).val = false ∧
    (RetrieveWithCredContext goWorld offHostIAM none).err ≠ none ∧
    httpRequests (RetrieveWithCredContext goWorld offHostIAM none).trace = [] :=
  ⟨by decide, RetrieveWithCredContext_loopback_gate goWorld offHostIAM none (by decide)
    (by decide) (by decide) (by decide) (by decide) (by decide) (by decide)
    (Or.inl (by decide))⟩

/-! ### The precedence of the sources -/

/-- C1. The source is selected in a fixed order.  (1) When the effective web-identity
token file is non-empty, the web-identity exchange is the only thing entered,
whatever the relative and the full URI are, no request, file read or lookup
is made by the call itself, and the value and error of the exchange are
returned.  (2) Otherwise, when the effective relative URI is non-empty, the
container-task fetcher is the only thing entered, no file is read, no host is
looked up (the validator is not entered), and every request is the GET of the
container endpoint.  (3) When the three effective values are empty, the
instance-profile fetcher is the only thing entered. -/
theorem RetrieveWithCredContext_precedence (W : World) (m : IAM) (cc : Option CredContext) :
    (effIdentityFile W m ≠ "" →
      ∃ creds, creds.GetWebIDTokenExpiry = effIdentityFile W m ∧
        invoked (RetrieveWithCredContext W m cc).trace = [Event.webIdentity creds] ∧
        httpRequests (RetrieveWithCredContext W m cc).trace = [] ∧
        fileReads (RetrieveWithCredContext W m cc).trace = [] ∧
        hostLookups (RetrieveWithCredContext W m cc).trace = [] ∧
        (RetrieveWithCredContext W m cc).val =
          (W.webIdentity creds (contextOf W cc) [Event.webIdentity creds]).1 ∧
        (RetrieveWithCredContext W m cc).err =
          (W.webIdentity creds (contextOf W cc) [Event.webIdentity creds]).2.1) ∧
    (effIdentityFile W m = "" → effRelativeURI W m ≠ "" →
      invoked (RetrieveWithCredContext W m cc).trace =
        [Event.getEcsTaskCredentials (selectClient W m (contextOf W cc))
          (if m.Endpoint = "" then DefaultECSRoleEndpoint ++ effRelativeURI W m
            else m.Endpoint) (effToken W m)] ∧
      fileReads (RetrieveWithCredContext W m cc).trace = [] ∧
      hostLookups (RetrieveWithCredContext W m cc).trace = [] ∧
      ∀ req ∈ httpRequests (RetrieveWithCredContext W m cc).trace,
        req = ecsRequest (if m.Endpoint = "" then DefaultECSRoleEndpoint ++ effRelativeURI W m
          else m.Endpoint) (effToken W m)) ∧
    (effIdentityFile W m = "" → effRelativeURI W m = "" → effFullURI W m = "" →
      invoked (RetrieveWithCredContext W m cc).trace =
        [Event.getCredentials (selectClient W m (contextOf W cc)) m.Endpoint] ∧
      fileReads (RetrieveWithCredContext W m cc).trace = [] ∧
      hostLookups (RetrieveWithCredContext W m cc).trace = []) := by
  refine ⟨?_, ?_, ?_⟩
  · intro hid
    have h1 : (resolveLocals W m).identityFile ≠ "" := by
      rw [resolveLocals_identityFile]
      exact hid
    rw [Retrieve_webIdentity W m cc h1]
    refine ⟨⟨selectClient W m (contextOf W cc),
      stsEndpoint m.Endpoint (resolveLocals W m).region, (resolveLocals W m).identityFile,
      (resolveLocals W m).roleArn, (resolveLocals W m).roleSessionName⟩,
      resolveLocals_identityFile W m, ?_⟩
    generalize W.webIdentity _ _ _ = r
    obtain ⟨v, e1, exp⟩ := r
    cases e1 <;> exact ⟨rfl, rfl, rfl, rfl, rfl, rfl⟩
  · intro hid hrel
    have h1 : (resolveLocals W m).identityFile = "" := by
      rw [resolveLocals_identityFile]
      exact hid
    have h2e : (resolveLocals W m).relativeURI = effRelativeURI W m :=
      resolveLocals_relativeURI W m
    have h2 : (resolveLocals W m).relativeURI ≠ "" := by
      rw [h2e]
      exact hrel
    have ht : (resolveLocals W m).token = effToken W m := resolveLocals_token W m
    rw [Retrieve_relative W m cc h1 h2, h2e, ht]
    obtain ⟨r1, r2, r3, r4⟩ := returnRoleCreds_observers
      (getEcsTaskCredentials W (selectClient W m (contextOf W cc))
        (if m.Endpoint = "" then DefaultECSRoleEndpoint ++ effRelativeURI W m else m.Endpoint)
        (effToken W m) [])
    obtain ⟨g1, g2, g3, -, g5⟩ := getEcsTaskCredentials_observers W
      (selectClient W m (contextOf W cc))
      (if m.Endpoint = "" then DefaultECSRoleEndpoint ++ effRelativeURI W m else m.Endpoint)
      (effToken W m) []
    rw [r1, r2, r3, r4, g1, g2, g3]
    exact ⟨rfl, rfl, rfl, g5 rfl⟩
  · intro hid hrel hfull
    have h1 : (resolveLocals W m).identityFile = "" := by
      rw [resolveLocals_identityFile]
      exact hid
    have h2 : (resolveLocals W m).relativeURI = "" := by
      rw [resolveLocals_relativeURI]
      exact hrel
    have h4 : (resolveLocals W m).fullURI = "" := by
      rw [resolveLocals_fullURI]
      exact hfull
    rw [Retrieve_default W m cc h1 h2 h4]
    obtain ⟨r1, r2, r3, -⟩ := returnRoleCreds_observers
      (getCredentials W (selectClient W m (contextOf W cc)) m.Endpoint [])
    obtain ⟨g1, g2, g3, -⟩ := getCredentials_observers W
      (selectClient W m (contextOf W cc)) m.Endpoint []
    rw [r1, r2, r3, g1, g2, g3]
    exact ⟨rfl, rfl, rfl⟩

/-- C1, at three concrete inputs: a web-identity token file together with a relative
URI, a relative URI alone, and the empty configuration. -/
theorem RetrieveWithCredContext_precedence_witness :
    (∃ creds, creds.GetWebIDTokenExpiry = "/var/run/web-token" ∧
      invoked (RetrieveWithCredContext goWorld webIdentityIAM none).trace
        = [Event.webIdentity creds]) ∧
    invoked (RetrieveWithCredContext goWorld relativeIAM none).trace =
      [Event.getEcsTaskCredentials ⟨0⟩ "http://169.254.170.2/v2/creds" ""] ∧
    invoked (RetrieveWithCredContext goWorld emptyIAM none).trace =
      [Event.getCredentials ⟨0⟩ ""] := by
  obtain ⟨creds, h1, h2, -⟩ :=
    (RetrieveWithCredContext_precedence goWorld webIdentityIAM none).1 (by decide)
  exact ⟨⟨creds, h1, h2⟩,
    ((RetrieveWithCredContext_precedence goWorld relativeIAM none).2.1 (by decide)
      (by decide)).1,
    ((RetrieveWithCredContext_precedence goWorld emptyIAM none).2.2 (by decide) (by decide)
      (by decide)).1⟩

end Credentials
